import Mathlib

/-!
Verification of the seatAgent command-normalization, dispatch and caching
layer.  The Python sources are shallowly embedded: Python dict/list/str/int
values become the inductive `Value`; raising code returns `Except PyErr`;
the module-level mutable `DEFAULT_RESPONSE_STRUCTURE` (whose inner
`seatCommand` tree is shared by every shallow `.copy()`) is threaded as an
explicit state argument; external library calls (`json.loads`,
`yaml.safe_load`, `requests.post`, the filesystem) are oracle parameters.
-/

namespace SeatAgent

/-- A Python/JSON-like value: `None`, `bool`, `int`, `str`, `list`, `dict`
(dicts are insertion-ordered string-keyed association lists, as in Python). -/
inductive Value where
  | null
  | bool (b : Bool)
  | int (n : Int)
  | str (s : String)
  | list (xs : List Value)
  | obj (kvs : List (String × Value))

/-- The kinds of Python exception the embedded code can raise. -/
inductive PyErr where
  | keyError
  | typeError
  | attributeError
  | jsonError
deriving DecidableEq, Repr

/-- First-match association-list lookup (Python dict lookup; keys of dicts
built by the embedded code are unique, so first match is the binding). -/
def alookup : List (String × Value) → String → Option Value
  | [], _ => none
  | (k', v') :: rest, k => if k' = k then some v' else alookup rest k

/-- Python dict item assignment `d[k] = v`: overwrite the first binding of
`k` keeping its position, else append `(k, v)` at the end. -/
def setKey : List (String × Value) → String → Value → List (String × Value)
  | [], k, v => [(k, v)]
  | (k', v') :: rest, k, v =>
    if k' = k then (k', v) :: rest else (k', v') :: setKey rest k v

/-- Python truthiness of a value. -/
def truthy : Value → Bool
  | .null => false
  | .bool b => b
  | .int n => n != 0
  | .str s => s != ""
  | .list xs => !xs.isEmpty
  | .obj kvs => !kvs.isEmpty

/-- Python `v > 0`: defined for ints and bools (bool is an int subclass);
any other operand raises `TypeError` (Python 3 ordered comparison). -/
def cmpGtZero : Value → Except PyErr Bool
  | .int n => .ok (decide (0 < n))
  | .bool b => .ok b
  | _ => .error .typeError

/-- Python `d.get(k, default)`: only dicts have `.get`; anything else
raises `AttributeError`. -/
def mGet (v : Value) (k : String) (d : Value) : Except PyErr Value :=
  match v with
  | .obj kvs => .ok ((alookup kvs k).getD d)
  | _ => .error .attributeError

/-- Python subscription `v[k]` with a string key: dict lookup
(`KeyError` when absent); strings, lists and the rest raise `TypeError`. -/
def pyIndex (v : Value) (k : String) : Except PyErr Value :=
  match v with
  | .obj kvs =>
    match alookup kvs k with
    | some x => .ok x
    | none => .error .keyError
  | _ => .error .typeError

/-- Substring test, for Python `key in someString`. -/
def pySubstr (pat s : String) : Bool := (s.splitOn pat).length > 1

/-- Python `k in v` for a string `k`: key membership in dicts, substring
test in strings, element equality in lists (a string equals only the same
string); ints, bools and `None` are not containers and raise `TypeError`. -/
def pyIn (k : String) (v : Value) : Except PyErr Bool :=
  match v with
  | .obj kvs => .ok (alookup kvs k).isSome
  | .str s => .ok (pySubstr k s)
  | .list xs => .ok (xs.any fun x => match x with | .str s => s = k | _ => false)
  | _ => .error .typeError

/-- Merge an update list into a base association list, entry by entry
(the in-place effect of Python `dict.update` on the underlying entries). -/
def updList (base entries : List (String × Value)) : List (String × Value) :=
  entries.foldl (fun acc kv => setKey acc kv.1 kv.2) base

/-- Python `d.update(a)` for dicts: merge `a` into `d` entry by entry.
A non-dict receiver raises `AttributeError`; a non-dict argument is
modelled as raising `TypeError` (the exotic iterable-of-pairs form of
`dict.update` is not modelled). -/
def dictUpdate (d a : Value) : Except PyErr Value :=
  match d, a with
  | .obj kvs, .obj kvs2 => .ok (.obj (updList kvs kvs2))
  | .obj _, _ => .error .typeError
  | _, _ => .error .attributeError

/-- Python `d[k] = v` where `d` must be a dict (else `TypeError`). -/
def setItem (d : Value) (k : String) (v : Value) : Except PyErr Value :=
  match d with
  | .obj kvs => .ok (.obj (setKey kvs k v))
  | _ => .error .typeError

/-- Write-back of an in-place mutation of the sub-dict at key `k` of the
dict `s` (the embedded form of mutating `s[k]` through a reference). -/
def setTop (s : Value) (k : String) (v : Value) : Value :=
  match s with
  | .obj kvs => .obj (setKey kvs k v)
  | x => x

/-- Projection along a path of keys, returning the `Int` payload. -/
def getIntPath : Value → List String → Option Int
  | .int n, [] => some n
  | _, [] => none
  | .obj kvs, k :: ks =>
    match alookup kvs k with
    | some v => getIntPath v ks
    | none => none
  | _, _ :: _ => none

/-- Projection along a path of keys. -/
def getPath : Value → List String → Option Value
  | v, [] => some v
  | .obj kvs, k :: ks =>
    match alookup kvs k with
    | some v => getPath v ks
    | none => none
  | _, _ :: _ => none

/-- One neutral motor entry of `DEFAULT_RESPONSE_STRUCTURE` (`preprocess_llm_reponse.py` lines 37-41). -/
def defaultMotor : Value :=
  .obj [("percentage", .int 0), ("type", .str "relative"), ("direction", .str "neutral")]

/-- The inner `seatCommand` tree of `DEFAULT_RESPONSE_STRUCTURE`
(`preprocess_llm_reponse.py` lines 4-77), in source order. -/
def defaultSC : Value :=
  .obj
    [ ("vibe", .obj
        [ ("action", .int 0), ("navigationTime", .str "00:00:00:000"),
          ("mainVolume", .int 0), ("vibeVolume", .int 0), ("audioVolume", .int 0),
          ("cushionVolume", .int 0), ("backrestVolume", .int 0) ]),
      ("pneumatic", .obj
        [ ("adjustement", .obj
            [ ("lumbar", .obj [("direction", .str "neutral"), ("percentage", .int 0)]),
              ("neckrest", .obj [("direction", .str "neutral"), ("percentage", .int 0)]) ]),
          ("massage", .obj
            [ ("is_active", .bool false), ("experience", .str "none"),
              ("intensity", .str "off") ]) ]),
      ("thermal", .obj [("heatingLevel", .int 0), ("ventilationLevel", .int 0)]),
      ("motors", .obj
        [ ("Track", defaultMotor), ("Backrest", defaultMotor), ("Height", defaultMotor),
          ("Tilt", defaultMotor), ("UBA", defaultMotor), ("Headrest", defaultMotor),
          ("CLA", defaultMotor) ]),
      ("seatbelt", .obj [("percentage", .int 0)]) ]

/-- `DEFAULT_RESPONSE_STRUCTURE` with a given current `seatCommand` tree:
the shallow `DEFAULT_RESPONSE_STRUCTURE.copy()` makes a fresh outer dict
whose single entry still aliases the shared inner tree. -/
def defaultCopy (s : Value) : Value := .obj [("seatCommand", s)]

/-- Python `s.find(c)`: index of the first occurrence, `-1` when absent. -/
def pyFind (s : String) (c : Char) : Int :=
  match s.data.findIdx? (· = c) with
  | some i => (i : Int)
  | none => -1

/-- Python `s.rfind(c)`: index of the last occurrence, `-1` when absent. -/
def pyRFind (s : String) (c : Char) : Int :=
  match s.data.reverse.findIdx? (· = c) with
  | some i => (s.data.length : Int) - 1 - (i : Int)
  | none => -1

/-- Python slice `s[a:b]` for `0 ≤ a ≤ b`. -/
def pySlice (s : String) (a b : Nat) : String :=
  .mk ((s.data.drop a).take (b - a))

/-- `extract_json_from_response` (`preprocess_llm_reponse.py` lines 79-101).
`loads` is the `json.loads` oracle (any failure of it is the caught
`JSONDecodeError`).  Faithful to the source: the dict branch parses an
embedded object out of a string `answer` field and returns it as-is, else
falls back to `response.get("seatCommand", {})`; the string branch parses
the brace-delimited slice and projects `seatCommand`; every failure path
ends in `{}`. -/
def extract_json_from_response (loads : String → Except PyErr Value)
    (response : Value) : Value :=
  match response with
  | .obj kvs =>
    let fallback : Value := (alookup kvs "seatCommand").getD (.obj [])
    (match alookup kvs "answer" with
     | some (.str a) =>
       let js := pyFind a '{'
       let je := pyRFind a '}' + 1
       if js ≥ 0 ∧ je > js then
         match loads (pySlice a js.toNat je.toNat) with
         | .ok v => v
         | .error _ => fallback
       else fallback
     | _ => fallback)
  | .str s =>
    let js := pyFind s '{'
    let je := pyRFind s '}' + 1
    if js ≥ 0 ∧ je > js then
      match loads (pySlice s js.toNat je.toNat) with
      | .ok parsed =>
        (match parsed with
         | .obj pk => (alookup pk "seatCommand").getD (.obj [])
         | _ => .obj [])   -- `.get` on a non-dict raises; caught, falls to `return {}`
      | .error _ => .obj []
    else .obj []
  | _ => .obj []

/-- Short-circuiting `any(motor.get("percentage", 0) > 0 for motor in
section_data.values() if isinstance(motor, dict))`. -/
def anyGtZero : List Value → Except PyErr Bool
  | [] => .ok false
  | v :: rest =>
    match v with
    | .obj mv => do
      let b ← cmpGtZero ((alookup mv "percentage").getD (.int 0))
      if b then pure true else anyGtZero rest
    | _ => anyGtZero rest

/-- `is_section_active` (`preprocess_llm_reponse.py` lines 103-122).
Returns the Python value of the expression (the raw flag for massage,
booleans elsewhere); `or` is short-circuiting, so the right operand is
only evaluated (and can only raise) when the left is false. -/
def is_section_active (sectionData : Value) (sectionName : String) :
    Except PyErr Value :=
  if truthy sectionData = false then .ok (.bool false)
  else if sectionName = "massage" then mGet sectionData "is_active" (.bool false)
  else if sectionName = "thermal" then do
    let hb ← cmpGtZero (← mGet sectionData "heatingLevel" (.int 0))
    if hb then pure (.bool true)
    else do
      let vb ← cmpGtZero (← mGet sectionData "ventilationLevel" (.int 0))
      pure (.bool vb)
  else if sectionName = "vibe" then do
    let ab ← cmpGtZero (← mGet sectionData "action" (.int 0))
    pure (.bool ab)
  else if sectionName = "pneumatic_adjustment" then do
    let l ← mGet sectionData "lumbar" (.obj [])
    let lb ← cmpGtZero (← mGet l "percentage" (.int 0))
    if lb then pure (.bool true)
    else do
      let n ← mGet sectionData "neckrest" (.obj [])
      let nb ← cmpGtZero (← mGet n "percentage" (.int 0))
      pure (.bool nb)
  else if sectionName = "motors" then
    match sectionData with
    | .obj kvs => do
      let b ← anyGtZero (kvs.map Prod.snd)
      pure (.bool b)
    | _ => .error .attributeError
  else if sectionName = "seatbelt" then do
    let pb ← cmpGtZero (← mGet sectionData "percentage" (.int 0))
    pure (.bool pb)
  else .ok (.bool false)

/-- Lines 126-127 of `handle_legacy_fields`: the boolean `ventilation`
shim.  Note the source indexes `result["thermal"]` directly on the
top-level result dict. -/
def legacyVent (actions result : Value) : Except PyErr Value := do
  let v ← mGet actions "ventilation" .null
  match v with
  | .bool _ => do
    let t ← pyIndex result "thermal"
    let lvl : Value := if truthy v then .int 3 else .int 0
    let t' ← setItem t "ventilationLevel" lvl
    pure (setTop result "thermal" t')
  | _ => pure result

/-- Lines 129-131 of `handle_legacy_fields`: the boolean `vibe` shim,
which indexes `result["vibe"]` directly on the top-level result dict. -/
def legacyVibe (actions result : Value) : Except PyErr Value := do
  let vv ← mGet actions "vibe" .null
  match vv with
  | .bool b =>
    if b then do
      let vb ← pyIndex result "vibe"
      let vb1 ← setItem vb "action" (.int 1)
      let r1a := setTop result "vibe" vb1
      let vb2 ← pyIndex r1a "vibe"
      let vb3 ← setItem vb2 "mainVolume" (.int 5)
      pure (setTop r1a "vibe" vb3)
    else pure result
  | _ => pure result

/-- Lines 133-134 of `handle_legacy_fields`: the boolean `massage` shim,
which indexes `result["pneumatic"]` directly on the top-level result dict. -/
def legacyMassage (actions result : Value) : Except PyErr Value := do
  let mv ← mGet actions "massage" .null
  match mv with
  | .bool _ => do
    let pn ← pyIndex result "pneumatic"
    let ms ← pyIndex pn "massage"
    let ms' ← setItem ms "is_active" mv
    pure (setTop result "pneumatic" (setTop pn "massage" ms'))
  | _ => pure result

/-- `handle_legacy_fields` (`preprocess_llm_reponse.py` lines 124-134),
in value-passing style: the returned value is the mutated `result`. -/
def handle_legacy_fields (actions result : Value) : Except PyErr Value := do
  let r1 ← legacyVent actions result
  let r2 ← legacyVibe actions r1
  legacyMassage actions r2

/-- Lift a raising computation, recording the state current at the raise
(what the shared default tree holds when the exception propagates). -/
def liftE (s : Value) : Except PyErr α → Except (Value × PyErr) α
  | .ok a => .ok a
  | .error e => .error (s, e)

/-- One plain section block of `process_llm_response` (the `vibe`,
`thermal` and `seatbelt` blocks, lines 151-157 and 174-176, share this
shape): if the key is present and the section is active, field-wise merge
it into the shared tree's section. -/
def stepSection (key secName : String) (actions s : Value) :
    Except (Value × PyErr) Value := do
  let b ← liftE s (pyIn key actions)
  if b then do
    let act ← liftE s (pyIndex actions key)
    let active ← liftE s (is_section_active act secName)
    if truthy active then do
      let cur ← liftE s (pyIndex s key)
      let merged ← liftE s (dictUpdate cur act)
      pure (setTop s key merged)
    else pure s
  else pure s

/-- The per-motor merge loop of lines 161-163: only motors already named
in the canonical tree are updated, in fragment order. -/
def motorsLoop : List (String × Value) → Value → Except (Value × PyErr) Value
  | [], s => .ok s
  | (m, settings) :: rest, s => do
    let motorsObj ← liftE s (pyIndex s "motors")
    let mem ← liftE s (pyIn m motorsObj)
    if mem then do
      let target ← liftE s (pyIndex motorsObj m)
      let merged ← liftE s (dictUpdate target settings)
      motorsLoop rest (setTop s "motors" (setTop motorsObj m merged))
    else motorsLoop rest s

/-- The motors block of `process_llm_response` (lines 159-163). -/
def stepMotors (actions s : Value) : Except (Value × PyErr) Value := do
  let b ← liftE s (pyIn "motors" actions)
  if b then do
    let act ← liftE s (pyIndex actions "motors")
    let active ← liftE s (is_section_active act "motors")
    if truthy active then
      match act with
      | .obj items => motorsLoop items s
      | _ => .error (s, .attributeError)   -- `.items()` on a non-dict
    else pure s
  else pure s

/-- The massage half of the pneumatic block (lines 166-168): merge the
fragment's `pneumatic.massage` when active. -/
def massagePhase (p s : Value) : Except (Value × PyErr) Value := do
  let bm ← liftE s (pyIn "massage" p)
  if bm then do
    let ms ← liftE s (pyIndex p "massage")
    let active ← liftE s (is_section_active ms "massage")
    if truthy active then do
      let pn ← liftE s (pyIndex s "pneumatic")
      let cur ← liftE s (pyIndex pn "massage")
      let merged ← liftE s (dictUpdate cur ms)
      pure (setTop s "pneumatic" (setTop pn "massage" merged))
    else pure s
  else pure s

/-- The adjustement half of the pneumatic block (lines 170-172): merge the
fragment's `pneumatic.adjustement` when active. -/
def adjustPhase (p s : Value) : Except (Value × PyErr) Value := do
  let ba ← liftE s (pyIn "adjustement" p)
  if ba then do
    let adj ← liftE s (pyIndex p "adjustement")
    let active ← liftE s (is_section_active adj "pneumatic_adjustment")
    if truthy active then do
      let pn ← liftE s (pyIndex s "pneumatic")
      let cur ← liftE s (pyIndex pn "adjustement")
      let merged ← liftE s (dictUpdate cur adj)
      pure (setTop s "pneumatic" (setTop pn "adjustement" merged))
    else pure s
  else pure s

/-- The pneumatic block of `process_llm_response` (lines 165-172):
massage first, then adjustement, each with its own activity test. -/
def stepPneumatic (actions s : Value) : Except (Value × PyErr) Value := do
  let b ← liftE s (pyIn "pneumatic" actions)
  if b then do
    let p ← liftE s (pyIndex actions "pneumatic")
    let s1 ← massagePhase p s
    adjustPhase p s1
  else pure s

/-- The `try`-body of `process_llm_response` (lines 142-180): extracts the
fragment, returns the default copy on a falsy extraction, otherwise runs
the five section blocks in source order followed by the legacy shim.
The state is the shared `seatCommand` tree; an error carries the state at
the moment the exception propagates. -/
def processBody (loads : String → Except PyErr Value) (s response : Value) :
    Except (Value × PyErr) (Value × Value) :=
  let actions := extract_json_from_response loads response
  if truthy actions = false then .ok (s, defaultCopy s)
  else do
    let s1 ← stepSection "vibe" "vibe" actions s
    let s2 ← stepSection "thermal" "thermal" actions s1
    let s3 ← stepMotors actions s2
    let s4 ← stepPneumatic actions s3
    let s5 ← stepSection "seatbelt" "seatbelt" actions s4
    match handle_legacy_fields actions (defaultCopy s5) with
    | .ok r => .ok (s5, r)
    | .error e => .error (s5, e)

/-- `process_llm_response` (`preprocess_llm_reponse.py` lines 136-189):
the catch-all handlers turn any raised exception into
`DEFAULT_RESPONSE_STRUCTURE.copy()` — a fresh outer dict around the
(possibly already mutated) shared `seatCommand` tree.  Returns the new
shared tree and the returned command. -/
def process_llm_response (loads : String → Except PyErr Value)
    (s response : Value) : Value × Value :=
  match processBody loads s response with
  | .ok (s', r) => (s', r)
  | .error (s', _) => (s', defaultCopy s')

/-- A `json.loads` oracle that always fails; usable whenever the input
under study never reaches a string-parsing path. -/
def noLoads : String → Except PyErr Value := fun _ => .error .jsonError

/-! ## Motor MCP server (`src/mcp/mcp_server.py`) -/

/-- `MOTOR_MIN` (`mcp_server.py` line 14). -/
def MOTOR_MIN : Int := 0

/-- `MOTOR_MAX` (`mcp_server.py` line 15). -/
def MOTOR_MAX : Int := 100

/-- `MOTOR_STEP` (`mcp_server.py` line 16). -/
def MOTOR_STEP : Int := 10

/-- `clamp` (`mcp_server.py` lines 18-19). -/
def clamp (value : Int) (minValue : Int := MOTOR_MIN) (maxValue : Int := MOTOR_MAX) : Int :=
  max minValue (min value maxValue)

/-- The result dict shape shared by the individual motor-movement tools. -/
structure MoveResult where
  status : String
  motor : String
  previous_value : Int
  new_value : Int
  step : Int
  message : String
deriving Repr, DecidableEq

/-- `move_height_up` (`mcp_server.py` lines 160-179): default
`step = MOTOR_STEP`, default `new_value = None` in which case
`new_value = current_value - step`, then clamped. -/
def move_height_up (current_value : Int) (step : Int := MOTOR_STEP)
    (new_value : Option Int := none) : MoveResult :=
  let nv := match new_value with
    | none => current_value - step
    | some v => v
  let nv := clamp nv
  { status := "height moved up", motor := "height",
    previous_value := current_value, new_value := nv, step := step,
    message := "Track moved backward from " ++ toString current_value ++
      " to " ++ toString nv }

/-- `move_height_down` (`mcp_server.py` lines 181-198):
`new_value = clamp(current_value - MOTOR_STEP)`. -/
def move_height_down (current_value : Int) : MoveResult :=
  let nv := clamp (current_value - MOTOR_STEP)
  { status := "Height moved down", motor := "Height",
    previous_value := current_value, new_value := nv, step := MOTOR_STEP,
    message := "Seat height lowered from " ++ toString current_value ++
      " to " ++ toString nv }

/-! ## Metadata handler (`src/utils/metadata_handler.py`) and the
live-state cache of `src/app.py` -/

/-- The mutable fields of `MetadataHandler` (`metadata_handler.py`
lines 7-10): `last_metadata` starts as `None`, `last_modified_time` as 0. -/
structure HandlerState where
  last_metadata : Value
  last_modified_time : Int

/-- What the telemetry file looks like during one load attempt:
`os.path.exists`, `os.path.getmtime`, and the outcome of
`open` + `yaml.safe_load` (a parsed value or a raised error). -/
structure TelemetryEnv where
  fileExists : Bool
  mtime : Int
  parse : Except PyErr Value

/-- `MetadataHandler.load_latest_metadata` (`metadata_handler.py`
lines 12-24): re-reads only when the modification time changed; any
raised error is caught and `{}` is returned (note: not the previous
`last_metadata`); otherwise returns `self.last_metadata or {}`. -/
def load_latest_metadata (st : HandlerState) (env : TelemetryEnv) :
    HandlerState × Value :=
  if env.fileExists then
    if env.mtime ≠ st.last_modified_time then
      match env.parse with
      | .ok v =>
        (⟨v, env.mtime⟩, if truthy v then v else .obj [])
      | .error _ => (st, .obj [])
    else (st, if truthy st.last_metadata then st.last_metadata else .obj [])
  else (st, if truthy st.last_metadata then st.last_metadata else .obj [])

/-- Python `str(v)` as used inside the metadata f-string (enough of
`str` for the scalar telemetry fields; containers get a repr-like form). -/
def pyStr : Value → String
  | .null => "None"
  | .bool true => "True"
  | .bool false => "False"
  | .int n => toString n
  | .str s => s
  | .list _ => "[...]"
  | .obj _ => "{...}"

/-- `MetadataHandler.format_metadata_for_prompt` (`metadata_handler.py`
lines 26-54): falsy metadata gives the explicit unavailable marker; a
missing field raises and is caught, giving the error marker. -/
def format_metadata_for_prompt (metadata : Value) : String :=
  if truthy metadata = false then "No current driver metadata available."
  else
    match (do
      let mp ← pyIndex metadata "motors"
      let temp ← pyIndex metadata "cabin_tempreature"
      let dm ← pyIndex metadata "DrivingMode"
      let po ← pyIndex metadata "posture"
      let tv ← pyIndex temp "value"
      let tu ← pyIndex temp "unit"
      let cs ← pyIndex metadata "car_speed"
      let ve ← pyIndex metadata "ventilation"
      let tr ← mGet metadata "Traffic" (.str "Unknown")
      let fl ← pyIndex metadata "fatigue_level"
      let t ← pyIndex mp "Track"
      let h ← pyIndex mp "Height"
      let b ← pyIndex mp "Backrest"
      let st ← pyIndex mp "SeatTilt"
      let u ← pyIndex mp "Uba"
      let hr ← pyIndex mp "Headrest"
      pure ("- Driving Mode: " ++ pyStr dm ++ "\n" ++
        "- Posture: " ++ pyStr po ++ "\n" ++
        "- Temperature: " ++ pyStr tv ++ " " ++ pyStr tu ++ "\n" ++
        "- Car Speed: " ++ pyStr cs ++ "\n" ++
        "- ventilation: " ++ pyStr ve ++ "\n" ++
        "- Traffic: " ++ pyStr tr ++ "\n" ++
        "- Fatigue Level: " ++ pyStr fl ++ "\n" ++
        "Current motors Positions:\n" ++
        "  - Track: " ++ pyStr t ++ "\n" ++
        "  - Height: " ++ pyStr h ++ "\n" ++
        "  - Backrest: " ++ pyStr b ++ "\n" ++
        "  - Seat Tilt: " ++ pyStr st ++ "\n" ++
        "  - Uba: " ++ pyStr u ++ "\n" ++
        "  - Headrest: " ++ pyStr hr) : Except PyErr String) with
    | .ok s => s
    | .error _ => "Error processing driver metadata."

/-- The metadata-cache fields of `DynamicMCPHost` (`app.py` lines 60-61):
`cached_metadata` starts as `None`, `last_metadata_update` as 0. -/
structure AppCacheState where
  cached_metadata : Value
  last_metadata_update : Int

/-- `DynamicMCPHost.refresh_metadata_cache` (`app.py` lines 136-144):
unconditionally overwrites `cached_metadata` with whatever the loader
returned; advances the timestamp only when that value is truthy. -/
def refresh_metadata_cache (a : AppCacheState) (h : HandlerState)
    (env : TelemetryEnv) (now : Int) : AppCacheState × HandlerState :=
  let (h', v) := load_latest_metadata h env
  if truthy v then (⟨v, now⟩, h') else (⟨v, a.last_metadata_update⟩, h')

/-- `DynamicMCPHost.get_current_metadata` (`app.py` lines 146-153):
refresh when the snapshot is older than 5 seconds, then serve the cached
metadata if truthy, else the literal "Metadata unavailable". -/
def get_current_metadata (a : AppCacheState) (h : HandlerState)
    (env : TelemetryEnv) (now : Int) :
    (AppCacheState × HandlerState) × String :=
  let (a1, h1) :=
    if now - a.last_metadata_update > 5 then refresh_metadata_cache a h env now
    else (a, h)
  ((a1, h1),
   if truthy a1.cached_metadata then format_metadata_for_prompt a1.cached_metadata
   else "Metadata unavailable")

/-! ## Dispatcher (`DynamicMCPHost.send_mcp_command`, `app.py` lines 181-195) -/

/-- What one `requests.post` to the backend does: either raises (network
fault) or yields a status code plus the outcome of `response.json()`. -/
def NetBehavior := Except PyErr (Int × Except PyErr Value)

/-- Lookup in the discovered `available_tools` catalog (server → dispatch
address), Python dict membership plus subscription. -/
def alookupStr : List (String × String) → String → Option String
  | [], _ => none
  | (k', v') :: rest, k => if k' = k then some v' else alookupStr rest k

/-- `send_mcp_command` (`app.py` lines 181-195), also returning the list
of payloads actually posted.  An unknown backend yields a local
`(400, error)` with no network traffic; a raised network fault or a
non-JSON body yields the uniform `(500, error)`; otherwise the backend's
status and JSON body are passed through.  Exactly the catch-all
`try`/`except` of the source: the caller always gets a status+body pair. -/
def send_mcp_command (available_tools : List (String × String))
    (server_name tool_name : String) (args : Value) (net : NetBehavior) :
    (Int × Value) × List Value :=
  match alookupStr available_tools server_name with
  | none =>
    ((400, .obj [("error", .str ("Server " ++ server_name ++ " not available"))]), [])
  | some _url =>
    let payload : Value := .obj [("tool", .str tool_name), ("args", args)]
    match net with
    | .error _ =>
      ((500, .obj [("error", .str ("Failed to reach " ++ server_name ++ " server"))]),
       [payload])
    | .ok (status, bodyR) =>
      match bodyR with
      | .ok body => ((status, body), [payload])
      | .error _ =>
        ((500, .obj [("error", .str ("Failed to reach " ++ server_name ++ " server"))]),
         [payload])

/-! ## Decision interpretation (`DynamicMCPHost.process_query`,
`app.py` lines 212-259) -/

/-- The typed outcome of interpreting one decision-source reply. -/
inductive Decision where
  | directAnswer (response : Value)
  | toolInvocation (server tool : String) (args : Value)
  | invalidDecision
  | serverError

/-- Python `decision.get("action") == "direct_response"`: true exactly for
the equal string (cross-type `==` is `False`, never raising). -/
def isDirectResponse (v : Value) : Bool :=
  match v with
  | .str s => s = "direct_response"
  | _ => false

/-- The decision-interpretation portion of `process_query` (`app.py`
lines 212-259).  `loads` is the `json.loads` oracle applied to the reply
text.  A parse failure returns the raw text as a direct answer; an
`action` of `direct_response` returns `decision.get("response")`; a
`seatCommand` key routes to the motor backend's `seat_adjustment` tool;
anything else is the "Invalid action from LLM" (400) outcome.  A parsed
non-dict makes `decision.get` raise, landing in the outer catch-all
(the 500 path). -/
def interpret_decision (loads : String → Except PyErr Value)
    (decision_text : String) : Decision :=
  match loads decision_text with
  | .error _ => .directAnswer (.str decision_text)
  | .ok decision =>
    match decision with
    | .obj kvs =>
      if isDirectResponse ((alookup kvs "action").getD .null) then
        .directAnswer ((alookup kvs "response").getD .null)
      else if (alookup kvs "seatCommand").isSome then
        .toolInvocation "motor" "seat_adjustment"
          ((alookup kvs "seatCommand").getD (.obj []))
      else .invalidDecision
    | _ => .serverError

/-! ## Structural invariant of the shared `seatCommand` tree -/

/-- The motor names of the canonical command, in declaration order. -/
def motorNames : List String :=
  ["Track", "Backrest", "Height", "Tilt", "UBA", "Headrest", "CLA"]

/-- Keys of an association list. -/
def keys (l : List (String × Value)) : List String := l.map Prod.fst

/-- The shape every reachable state of the shared `seatCommand` tree has:
exactly the five canonical sections in declaration order, each a dict with
duplicate-free keys, the pneumatic section holding `adjustement` and
`massage` sub-dicts, and the motors section holding exactly the seven
motors, each a dict with duplicate-free keys. -/
def scInv (s : Value) : Prop :=
  ∃ v adj ms t m sb,
    s = .obj
      [ ("vibe", .obj v),
        ("pneumatic", .obj [("adjustement", .obj adj), ("massage", .obj ms)]),
        ("thermal", .obj t),
        ("motors", .obj m),
        ("seatbelt", .obj sb) ] ∧
    (keys v).Nodup ∧ (keys adj).Nodup ∧ (keys ms).Nodup ∧
    (keys t).Nodup ∧ (keys sb).Nodup ∧
    keys m = motorNames ∧
    (∀ kv ∈ m, ∃ mv, kv.2 = Value.obj mv ∧ (keys mv).Nodup)

/-- The canonical sections every normalized command must carry. -/
def hasCanonicalKeys (r : Value) : Bool :=
  ["vibe", "pneumatic", "thermal", "motors", "seatbelt"].all
    fun k => (getPath r ["seatCommand", k]).isSome

/-- The pristine `DEFAULT_RESPONSE_STRUCTURE` value. -/
def DEFAULT_RESPONSE_STRUCTURE : Value := defaultCopy defaultSC

/-- Does every motor of the normalized command carry an integer
percentage within [0,100]? -/
def motorPercentagesWithinRange (r : Value) : Bool :=
  motorNames.all fun mn =>
    match getIntPath r ["seatCommand", "motors", mn, "percentage"] with
    | some p => 0 ≤ p ∧ p ≤ 100
    | none => false

/-- A fragment naming only motor `Track` with the given percentage. -/
def fragTrack (p : Int) : Value :=
  .obj [("seatCommand", .obj [("motors", .obj [("Track", .obj [("percentage", .int p)])])])]

/-- A fragment activating the thermal section with heating level 50. -/
def fragThermal50 : Value :=
  .obj [("seatCommand", .obj [("thermal", .obj [("heatingLevel", .int 50)])])]

/-- A legacy-shaped fragment carrying the boolean `ventilation` flag. -/
def fragLegacyVent : Value :=
  .obj [("seatCommand", .obj [("ventilation", .bool true)])]

/-- The canonical command expected for a `Track`-only fragment with
percentage 40: everything neutral except that one field. -/
def expectedTrack40 : Value :=
  .obj
    [ ("vibe", .obj
        [ ("action", .int 0), ("navigationTime", .str "00:00:00:000"),
          ("mainVolume", .int 0), ("vibeVolume", .int 0), ("audioVolume", .int 0),
          ("cushionVolume", .int 0), ("backrestVolume", .int 0) ]),
      ("pneumatic", .obj
        [ ("adjustement", .obj
            [ ("lumbar", .obj [("direction", .str "neutral"), ("percentage", .int 0)]),
              ("neckrest", .obj [("direction", .str "neutral"), ("percentage", .int 0)]) ]),
          ("massage", .obj
            [ ("is_active", .bool false), ("experience", .str "none"),
              ("intensity", .str "off") ]) ]),
      ("thermal", .obj [("heatingLevel", .int 0), ("ventilationLevel", .int 0)]),
      ("motors", .obj
        [ ("Track", .obj [("percentage", .int 40), ("type", .str "relative"),
            ("direction", .str "neutral")]),
          ("Backrest", defaultMotor), ("Height", defaultMotor),
          ("Tilt", defaultMotor), ("UBA", defaultMotor), ("Headrest", defaultMotor),
          ("CLA", defaultMotor) ]),
      ("seatbelt", .obj [("percentage", .int 0)]) ]

/-- The reply text of the direct-response decision test. -/
def drTextC4 : String := "\x7b\"action\":\"direct_response\",\"response\":\"ok\"\x7d"

/-- The reply text of the call-tool decision test. -/
def ctTextC4 : String :=
  "\x7b\"action\":\"call_tool\",\"tool\":\"x\",\"server\":\"y\",\"args\":\x7b\x7d\x7d"

/-- A `json.loads` oracle fixing the stdlib behaviour on the three
decision-test reply texts: the two JSON objects parse to the evident
dicts, anything else (such as "hello") raises. -/
def loadsC4 : String → Except PyErr Value := fun s =>
  if s = drTextC4 then
    .ok (.obj [("action", .str "direct_response"), ("response", .str "ok")])
  else if s = ctTextC4 then
    .ok (.obj [("action", .str "call_tool"), ("tool", .str "x"),
      ("server", .str "y"), ("args", .obj [])])
  else .error .jsonError

/-- A concrete telemetry snapshot with every field the formatter reads. -/
def metaSnapshot : Value :=
  .obj
    [ ("DrivingMode", .str "eco"), ("posture", .str "upright"),
      ("cabin_tempreature", .obj [("value", .int 21), ("unit", .str "C")]),
      ("car_speed", .int 50), ("ventilation", .int 1),
      ("Traffic", .str "low"), ("fatigue_level", .int 0),
      ("motors", .obj
        [ ("Track", .int 10), ("Height", .int 20), ("Backrest", .int 30),
          ("SeatTilt", .int 40), ("Uba", .int 50), ("Headrest", .int 60) ]) ]

/-- App cache holding the snapshot, last refreshed at time 0. -/
def c5App : AppCacheState := ⟨metaSnapshot, 0⟩

/-- Handler state holding the snapshot, loaded from mtime 1. -/
def c5Handler : HandlerState := ⟨metaSnapshot, 1⟩

/-- A telemetry file that exists, was rewritten (mtime 2), and whose
read/parse raises. -/
def c5Env : TelemetryEnv := ⟨true, 2, .error .typeError⟩

/-! ## Association-list lemmas -/

theorem alookup_mem {l : List (String × Value)} {k : String} {v : Value}
    (h : alookup l k = some v) : (k, v) ∈ l := by
  induction l with
  | nil => simp [alookup] at h
  | cons kv rest ih =>
    obtain ⟨k', v'⟩ := kv
    by_cases hk : k' = k
    · subst hk
      simp [alookup] at h
      simp [h]
    · simp [alookup, hk] at h
      exact List.mem_cons_of_mem _ (ih h)

theorem mem_keys_of_mem {l : List (String × Value)} {kv : String × Value}
    (h : kv ∈ l) : kv.1 ∈ keys l :=
  List.mem_map_of_mem Prod.fst h

theorem alookup_of_nodup_mem {l : List (String × Value)} {k : String} {v : Value}
    (hn : (keys l).Nodup) (h : (k, v) ∈ l) : alookup l k = some v := by
  induction l with
  | nil => simp at h
  | cons kv rest ih =>
    obtain ⟨k', v'⟩ := kv
    rw [keys, List.map_cons, List.nodup_cons] at hn
    rcases List.mem_cons.mp h with heq | hmem
    · cases heq
      simp [alookup]
    · have hkm : k ∈ List.map Prod.fst rest := mem_keys_of_mem hmem
      have hne : k' ≠ k := fun hkk => hn.1 (hkk ▸ hkm)
      simp [alookup, hne]
      exact ih hn.2 hmem

theorem setKey_eq_of_alookup {l : List (String × Value)} {k : String} {v : Value}
    (h : alookup l k = some v) : setKey l k v = l := by
  induction l with
  | nil => simp [alookup] at h
  | cons kv rest ih =>
    obtain ⟨k', v'⟩ := kv
    by_cases hk : k' = k
    · subst hk
      simp [alookup] at h
      simp [setKey, h]
    · simp [alookup, hk] at h
      simp [setKey, hk, ih h]

theorem keys_setKey_of_isSome {l : List (String × Value)} {k : String} {v : Value}
    (h : (alookup l k).isSome) : keys (setKey l k v) = keys l := by
  induction l with
  | nil => simp [alookup] at h
  | cons kv rest ih =>
    obtain ⟨k', v'⟩ := kv
    by_cases hk : k' = k
    · simp [setKey, hk, keys]
    · simp [alookup, hk] at h
      simp [setKey, hk, keys] at ih ⊢
      exact ih h

theorem keys_setKey_of_none {l : List (String × Value)} {k : String} {v : Value}
    (h : alookup l k = none) : keys (setKey l k v) = keys l ++ [k] := by
  induction l with
  | nil => simp [setKey, keys]
  | cons kv rest ih =>
    obtain ⟨k', v'⟩ := kv
    by_cases hk : k' = k
    · simp [alookup, hk] at h
    · simp [alookup, hk] at h
      simp [setKey, hk, keys] at ih ⊢
      exact ih h

theorem not_mem_keys_of_alookup_none {l : List (String × Value)} {k : String}
    (h : alookup l k = none) : k ∉ keys l := by
  induction l with
  | nil => simp [keys]
  | cons kv0 rest ih =>
    obtain ⟨k', v'⟩ := kv0
    by_cases hk' : k' = k
    · simp [alookup, hk'] at h
    · simp [alookup, hk'] at h
      rw [keys, List.map_cons, List.mem_cons]
      push_neg
      exact ⟨fun hkk => hk' hkk.symm, ih h⟩

theorem setKey_nodup {l : List (String × Value)} {k : String} {v : Value}
    (hn : (keys l).Nodup) : (keys (setKey l k v)).Nodup := by
  cases h : alookup l k with
  | some w => rw [keys_setKey_of_isSome (by simp [h])]; exact hn
  | none =>
    rw [keys_setKey_of_none h]
    rw [List.nodup_append]
    refine ⟨hn, by simp, ?_⟩
    intro a ha hb
    simp at hb
    subst hb
    exact not_mem_keys_of_alookup_none h ha

theorem updList_nodup {base entries : List (String × Value)}
    (hn : (keys base).Nodup) : (keys (updList base entries)).Nodup := by
  induction entries generalizing base with
  | nil => exact hn
  | cons kv rest ih => exact ih (setKey_nodup hn)

theorem updList_of_agree {base entries : List (String × Value)}
    (h : ∀ kv ∈ entries, alookup base kv.1 = some kv.2) :
    updList base entries = base := by
  induction entries with
  | nil => rfl
  | cons kv rest ih =>
    have h1 : setKey base kv.1 kv.2 = base := setKey_eq_of_alookup (h kv (by simp))
    show updList (setKey base kv.1 kv.2) rest = base
    rw [h1]
    exact ih fun kv hkv => h kv (by simp [hkv])

theorem updList_self {l : List (String × Value)} (hn : (keys l).Nodup) :
    updList l l = l :=
  updList_of_agree fun kv hkv => alookup_of_nodup_mem hn (by simpa using hkv)

theorem dictUpdate_self {l : List (String × Value)} (hn : (keys l).Nodup) :
    dictUpdate (.obj l) (.obj l) = .ok (.obj l) := by
  simp [dictUpdate]
  exact updList_self hn

theorem dictUpdate_ok_shape {l : List (String × Value)} {a w : Value}
    (h : dictUpdate (.obj l) a = .ok w) :
    ∃ m, a = .obj m ∧ w = .obj (updList l m) := by
  cases a with
  | obj m =>
    refine ⟨m, rfl, ?_⟩
    simp [dictUpdate] at h
    exact h.symm
  | null => simp [dictUpdate] at h
  | bool b => simp [dictUpdate] at h
  | int n => simp [dictUpdate] at h
  | str s => simp [dictUpdate] at h
  | list xs => simp [dictUpdate] at h

@[simp]
theorem ok_bind {ε α β : Type} (a : α) (k : α → Except ε β) :
    (Except.ok a >>= k) = k a := rfl

@[simp]
theorem error_bind {ε α β : Type} (e : ε) (k : α → Except ε β) :
    ((Except.error e : Except ε α) >>= k) = .error e := rfl

@[simp]
theorem pure_eq_ok {ε α : Type} (a : α) : (pure a : Except ε α) = .ok a := rfl

@[simp]
theorem liftE_ok (s : Value) (a : α) : liftE s (.ok a) = .ok a := rfl

@[simp]
theorem liftE_error (s : Value) (e : PyErr) :
    liftE s (.error e) = (.error (s, e) : Except (Value × PyErr) α) := rfl

theorem exceptBindOk {ε α β : Type} {x : Except ε α} {k : α → Except ε β} {out : β}
    (h : (x >>= k) = .ok out) : ∃ a, x = .ok a ∧ k a = .ok out := by
  cases x with
  | ok a => exact ⟨a, rfl, h⟩
  | error e => simp at h

theorem setKey_forall {l : List (String × Value)} {k : String} {w : Value}
    {P : Value → Prop} (hl : ∀ kv ∈ l, P kv.2) (hw : P w) :
    ∀ kv ∈ setKey l k w, P kv.2 := by
  induction l with
  | nil =>
    intro kv hkv
    rw [setKey] at hkv
    simp at hkv
    subst hkv
    exact hw
  | cons kv0 rest ih =>
    obtain ⟨k', v'⟩ := kv0
    intro kv hkv
    rw [setKey] at hkv
    by_cases hk : k' = k
    · simp [hk] at hkv
      rcases hkv with h1 | h1
      · subst h1
        exact hw
      · exact hl kv (List.mem_cons_of_mem _ h1)
    · simp [hk] at hkv
      rcases hkv with h1 | h1
      · subst h1
        exact hl (k', v') (by simp)
      · exact ih (fun kv2 hkv2 => hl kv2 (List.mem_cons_of_mem _ hkv2)) kv h1

/-! ## The invariant holds initially and is preserved -/

theorem scInv_defaultSC : scInv defaultSC := by
  refine ⟨_, _, _, _, _, _, rfl, ?_, ?_, ?_, ?_, ?_, ?_, ?_⟩
  · decide
  · decide
  · decide
  · decide
  · decide
  · decide
  · intro kv hkv
    simp [defaultMotor] at hkv
    rcases hkv with h | h | h | h | h | h | h <;> exact ⟨_, by rw [h], by decide⟩

/-- Every possible outcome of a plain-section step: state unchanged, an
error at the unchanged state, or the section at `key` field-merged. -/
theorem stepSection_results (key secName : String) (a s : Value) :
    stepSection key secName a s = .ok s ∨
    (∃ e, stepSection key secName a s = .error (s, e)) ∨
    (∃ secl upd, pyIndex s key = .ok (.obj secl) ∧
      stepSection key secName a s = .ok (setTop s key (.obj (updList secl upd)))) := by
  cases hb : pyIn key a with
  | error e => exact Or.inr (Or.inl ⟨e, by simp [stepSection, hb]⟩)
  | ok b =>
    cases b with
    | false => exact Or.inl (by simp [stepSection, hb])
    | true =>
      cases hact : pyIndex a key with
      | error e => exact Or.inr (Or.inl ⟨e, by simp [stepSection, hb, hact]⟩)
      | ok act =>
        cases hia : is_section_active act secName with
        | error e =>
          exact Or.inr (Or.inl ⟨e, by simp [stepSection, hb, hact, hia]⟩)
        | ok active =>
          by_cases htr : truthy active = true
          · cases hcur : pyIndex s key with
            | error e =>
              exact Or.inr (Or.inl ⟨e, by simp [stepSection, hb, hact, hia, htr, hcur]⟩)
            | ok cur =>
              cases hupd : dictUpdate cur act with
              | error e =>
                exact Or.inr (Or.inl ⟨e, by
                  simp [stepSection, hb, hact, hia, htr, hcur, hupd]⟩)
              | ok merged =>
                cases cur with
                | obj secl =>
                  obtain ⟨m2, rfl, rfl⟩ := dictUpdate_ok_shape hupd
                  exact Or.inr (Or.inr ⟨secl, m2, rfl, by
                    simp [stepSection, hb, hact, hia, htr, hcur, hupd]⟩)
                | null => simp [dictUpdate] at hupd
                | bool b2 => simp [dictUpdate] at hupd
                | int n => simp [dictUpdate] at hupd
                | str s2 => simp [dictUpdate] at hupd
                | list xs => simp [dictUpdate] at hupd
          · exact Or.inl (by simp [stepSection, hb, hact, hia, htr])

/-- A plain-section step keeps the structural invariant, in both its
normal and its raising outcome. -/
theorem stepSection_inv {s a : Value} (hs : scInv s) (key secName : String)
    (hk : key = "vibe" ∨ key = "thermal" ∨ key = "seatbelt") :
    (∀ s', stepSection key secName a s = .ok s' → scInv s') ∧
    (∀ se e, stepSection key secName a s = .error (se, e) → scInv se) := by
  obtain ⟨v, adj, ms, t, m, sb, rfl, hv, hadj, hms, ht, hsb, hm, hmv⟩ := hs
  constructor
  · intro s' hok
    rcases stepSection_results key secName a _ with h | ⟨e, h⟩ | ⟨secl, upd, hsec, h⟩
    · rw [h] at hok
      cases hok
      exact ⟨v, adj, ms, t, m, sb, rfl, hv, hadj, hms, ht, hsb, hm, hmv⟩
    · rw [h] at hok
      simp at hok
    · rw [h] at hok
      cases hok
      rcases hk with rfl | rfl | rfl
      · simp [pyIndex, alookup] at hsec
        subst hsec
        simp [setTop, setKey]
        exact ⟨_, adj, ms, t, m, sb, rfl,
          updList_nodup hv, hadj, hms, ht, hsb, hm, hmv⟩
      · simp [pyIndex, alookup] at hsec
        subst hsec
        simp [setTop, setKey]
        exact ⟨v, adj, ms, _, m, sb, rfl,
          hv, hadj, hms, updList_nodup ht, hsb, hm, hmv⟩
      · simp [pyIndex, alookup] at hsec
        subst hsec
        simp [setTop, setKey]
        exact ⟨v, adj, ms, t, m, _, rfl,
          hv, hadj, hms, ht, updList_nodup hsb, hm, hmv⟩
  · intro se e herr
    rcases stepSection_results key secName a _ with h | ⟨e2, h⟩ | ⟨secl, upd, hsec, h⟩
    · rw [h] at herr
      simp at herr
    · rw [h] at herr
      simp at herr
      obtain ⟨hse, _⟩ := herr
      subst hse
      exact ⟨v, adj, ms, t, m, sb, rfl, hv, hadj, hms, ht, hsb, hm, hmv⟩
    · rw [h] at herr
      simp at herr

/-- Feeding a state satisfying the invariant back through a plain-section
step is a no-op (or raises at the unchanged state): the merge overwrites
the section with its own entries. -/
theorem stepSection_fix {s : Value} (hs : scInv s) (key secName : String)
    (hk : key = "vibe" ∨ key = "thermal" ∨ key = "seatbelt") :
    stepSection key secName s s = .ok s ∨
    ∃ e, stepSection key secName s s = .error (s, e) := by
  obtain ⟨v, adj, ms, t, m, sb, rfl, hv, hadj, hms, ht, hsb, hm, hmv⟩ := hs
  rcases hk with rfl | rfl | rfl
  · cases hia : is_section_active (.obj v) secName with
    | error e =>
      exact Or.inr ⟨e, by simp [stepSection, pyIn, pyIndex, alookup, hia]⟩
    | ok active =>
      by_cases htr : truthy active = true
      · have hsu := dictUpdate_self hv
        exact Or.inl (by
          simp [stepSection, pyIn, pyIndex, alookup, hia, htr, hsu, setTop, setKey])
      · exact Or.inl (by simp [stepSection, pyIn, pyIndex, alookup, hia, htr])
  · cases hia : is_section_active (.obj t) secName with
    | error e =>
      exact Or.inr ⟨e, by simp [stepSection, pyIn, pyIndex, alookup, hia]⟩
    | ok active =>
      by_cases htr : truthy active = true
      · have hsu := dictUpdate_self ht
        exact Or.inl (by
          simp [stepSection, pyIn, pyIndex, alookup, hia, htr, hsu, setTop, setKey])
      · exact Or.inl (by simp [stepSection, pyIn, pyIndex, alookup, hia, htr])
  · cases hia : is_section_active (.obj sb) secName with
    | error e =>
      exact Or.inr ⟨e, by simp [stepSection, pyIn, pyIndex, alookup, hia]⟩
    | ok active =>
      by_cases htr : truthy active = true
      · have hsu := dictUpdate_self hsb
        exact Or.inl (by
          simp [stepSection, pyIn, pyIndex, alookup, hia, htr, hsu, setTop, setKey])
      · exact Or.inl (by simp [stepSection, pyIn, pyIndex, alookup, hia, htr])

/-- The motors-related facts the invariant provides: the motors section
is reachable, carries exactly the seven motors (each a duplicate-free
dict), writing it back unchanged is the identity, and replacing it with
any list of the same shape keeps the invariant. -/
theorem scInv_motors_view {s : Value} (hs : scInv s) :
    ∃ m, pyIn "motors" s = .ok true ∧
      pyIndex s "motors" = .ok (.obj m) ∧
      keys m = motorNames ∧
      (∀ kv ∈ m, ∃ mv, kv.2 = Value.obj mv ∧ (keys mv).Nodup) ∧
      setTop s "motors" (.obj m) = s ∧
      (∀ m2, keys m2 = motorNames →
        (∀ kv ∈ m2, ∃ mv, kv.2 = Value.obj mv ∧ (keys mv).Nodup) →
        scInv (setTop s "motors" (.obj m2))) := by
  obtain ⟨v, adj, ms, t, m, sb, rfl, hv, hadj, hms, ht, hsb, hm, hmv⟩ := hs
  refine ⟨m, by simp [pyIn, alookup], by simp [pyIndex, alookup], hm, hmv,
    by simp [setTop, setKey], ?_⟩
  intro m2 h1 h2
  simp [setTop, setKey]
  exact ⟨v, adj, ms, t, m2, sb, rfl, hv, hadj, hms, ht, hsb, h1, h2⟩

/-- The pneumatic-related facts the invariant provides: the pneumatic
section is exactly its `adjustement` and `massage` sub-dicts, writing
either back unchanged is the identity, and replacing either with any
duplicate-free dict keeps the invariant. -/
theorem scInv_pneumatic_view {s : Value} (hs : scInv s) :
    ∃ adj ms, pyIn "pneumatic" s = .ok true ∧
      pyIndex s "pneumatic" =
        .ok (.obj [("adjustement", .obj adj), ("massage", .obj ms)]) ∧
      (keys adj).Nodup ∧ (keys ms).Nodup ∧
      (∀ w, (keys w).Nodup →
        scInv (setTop s "pneumatic"
          (setTop (.obj [("adjustement", .obj adj), ("massage", .obj ms)])
            "massage" (.obj w)))) ∧
      setTop s "pneumatic"
        (setTop (.obj [("adjustement", .obj adj), ("massage", .obj ms)])
          "massage" (.obj ms)) = s ∧
      (∀ w, (keys w).Nodup →
        scInv (setTop s "pneumatic"
          (setTop (.obj [("adjustement", .obj adj), ("massage", .obj ms)])
            "adjustement" (.obj w)))) ∧
      setTop s "pneumatic"
        (setTop (.obj [("adjustement", .obj adj), ("massage", .obj ms)])
          "adjustement" (.obj adj)) = s := by
  obtain ⟨v, adj, ms, t, m, sb, rfl, hv, hadj, hms, ht, hsb, hm, hmv⟩ := hs
  refine ⟨adj, ms, by simp [pyIn, alookup], by simp [pyIndex, alookup],
    hadj, hms, ?_, by simp [setTop, setKey], ?_, by simp [setTop, setKey]⟩
  · intro w hw
    simp [setTop, setKey]
    exact ⟨v, adj, w, t, m, sb, rfl, hv, hadj, hw, ht, hsb, hm, hmv⟩
  · intro w hw
    simp [setTop, setKey]
    exact ⟨v, w, ms, t, m, sb, rfl, hv, hw, hms, ht, hsb, hm, hmv⟩

/-- The vibe section viewed through the invariant (for the legacy shim:
`actions.get("vibe")` on a canonical tree is a dict, never a bool). -/
theorem scInv_vibe_view {s : Value} (hs : scInv s) :
    ∃ v, mGet s "vibe" .null = .ok (.obj v) := by
  obtain ⟨v, adj, ms, t, m, sb, rfl, hv, hadj, hms, ht, hsb, hm, hmv⟩ := hs
  exact ⟨v, by simp [mGet, alookup]⟩

/-- A canonical tree has no top-level `ventilation` or `massage` key and
is truthy. -/
theorem scInv_top_view {s : Value} (hs : scInv s) :
    mGet s "ventilation" .null = .ok .null ∧
    mGet s "massage" .null = .ok .null ∧
    truthy s = true := by
  obtain ⟨v, adj, ms, t, m, sb, rfl, hv, hadj, hms, ht, hsb, hm, hmv⟩ := hs
  exact ⟨by simp [mGet, alookup], by simp [mGet, alookup], by simp [truthy]⟩

/-- Every step of the per-motor merge loop keeps the invariant, whether it
completes or raises mid-loop. -/
theorem motorsLoop_inv :
    ∀ (items : List (String × Value)) {s : Value}, scInv s →
    (∀ s', motorsLoop items s = .ok s' → scInv s') ∧
    (∀ se e, motorsLoop items s = .error (se, e) → scInv se) := by
  intro items
  induction items with
  | nil =>
    intro s hs
    constructor
    · intro s' hok
      simp [motorsLoop] at hok
      subst hok
      exact hs
    · intro se e herr
      simp [motorsLoop] at herr
  | cons hd rest ih =>
    obtain ⟨mn, settings⟩ := hd
    intro s hs
    obtain ⟨m, hin, hmo, hkeys, hall, hfixm, hrepl⟩ := scInv_motors_view hs
    have hpyin : pyIn mn (Value.obj m) = .ok (alookup m mn).isSome := by
      simp [pyIn]
    cases hmem : alookup m mn with
    | none =>
      have hstep : motorsLoop ((mn, settings) :: rest) s = motorsLoop rest s := by
        simp [motorsLoop, hmo, hpyin, hmem]
      rw [hstep]
      exact ih hs
    | some target =>
      obtain ⟨mv, htv, hmvn⟩ := hall (mn, target) (alookup_mem hmem)
      simp only at htv
      subst htv
      have hidx : pyIndex (Value.obj m) mn = .ok (.obj mv) := by
        simp [pyIndex, hmem]
      cases hupd : dictUpdate (.obj mv) settings with
      | error e =>
        have hstep : motorsLoop ((mn, settings) :: rest) s = .error (s, e) := by
          simp [motorsLoop, hmo, hpyin, hmem, hidx, hupd]
        rw [hstep]
        constructor
        · intro s' hok
          simp at hok
        · intro se e2 herr
          simp at herr
          obtain ⟨h1, _⟩ := herr
          subst h1
          exact hs
      | ok merged =>
        obtain ⟨upd2, rfl, rfl⟩ := dictUpdate_ok_shape hupd
        have hinv2 : scInv (setTop s "motors"
            (setTop (.obj m) mn (.obj (updList mv upd2)))) := by
          have e1 : setTop (Value.obj m) mn (.obj (updList mv upd2)) =
              .obj (setKey m mn (.obj (updList mv upd2))) := rfl
          rw [e1]
          apply hrepl
          · rw [← hkeys]
            exact keys_setKey_of_isSome (by simp [hmem])
          · exact setKey_forall
              (P := fun x => ∃ mv2, x = Value.obj mv2 ∧ (keys mv2).Nodup)
              hall ⟨updList mv upd2, rfl, updList_nodup hmvn⟩
        have hstep : motorsLoop ((mn, .obj upd2) :: rest) s =
            motorsLoop rest
              (setTop s "motors" (setTop (.obj m) mn (.obj (updList mv upd2)))) := by
          simp [motorsLoop, hmo, hpyin, hmem, hidx, hupd]
        rw [hstep]
        exact ih hinv2

/-- Running the per-motor loop on entries that already agree with the
current motors section leaves the state untouched. -/
theorem motorsLoop_fix {s : Value} {m : List (String × Value)}
    (hmo : pyIndex s "motors" = .ok (.obj m))
    (hfixm : setTop s "motors" (.obj m) = s)
    (hall : ∀ kv ∈ m, ∃ mv, kv.2 = Value.obj mv ∧ (keys mv).Nodup) :
    ∀ items, (∀ kv ∈ items, alookup m kv.1 = some kv.2) →
      motorsLoop items s = .ok s := by
  intro items
  induction items with
  | nil =>
    intro _
    simp [motorsLoop]
  | cons hd rest ih =>
    obtain ⟨mn, settings⟩ := hd
    intro hmem
    have h1 : alookup m mn = some settings := hmem (mn, settings) (by simp)
    obtain ⟨mv, hset, hmvn⟩ := hall (mn, settings) (alookup_mem h1)
    simp only at hset
    subst hset
    have hpyin : pyIn mn (Value.obj m) = .ok true := by
      simp [pyIn, h1]
    have hidx : pyIndex (Value.obj m) mn = .ok (.obj mv) := by
      simp [pyIndex, h1]
    have hupd : dictUpdate (.obj mv) (.obj mv) = .ok (.obj mv) :=
      dictUpdate_self hmvn
    have e1 : setTop (Value.obj m) mn (.obj mv) = .obj m := by
      simp [setTop, setKey_eq_of_alookup h1]
    have hstep : motorsLoop ((mn, .obj mv) :: rest) s = motorsLoop rest s := by
      simp [motorsLoop, hmo, hpyin, hidx, hupd, e1, hfixm]
    rw [hstep]
    exact ih (fun kv hkv => hmem kv (List.mem_cons_of_mem _ hkv))

/-- The motors block keeps the invariant. -/
theorem stepMotors_inv {a s : Value} (hs : scInv s) :
    (∀ s', stepMotors a s = .ok s' → scInv s') ∧
    (∀ se e, stepMotors a s = .error (se, e) → scInv se) := by
  have hok_s : (∀ s', Except.ok (ε := Value × PyErr) s = .ok s' → scInv s') ∧
      (∀ se e, Except.ok (ε := Value × PyErr) s = .error (se, e) → scInv se) := by
    constructor
    · intro s' hok
      cases hok
      exact hs
    · intro se e herr
      simp at herr
  have herr_s : ∀ e0 : PyErr,
      (∀ s', Except.error (α := Value) (s, e0) = .ok s' → scInv s') ∧
      (∀ se e, Except.error (α := Value) (s, e0) = .error (se, e) → scInv se) := by
    intro e0
    constructor
    · intro s' hok
      simp at hok
    · intro se e herr
      simp at herr
      obtain ⟨h1, _⟩ := herr
      subst h1
      exact hs
  cases hb : pyIn "motors" a with
  | error e =>
    have hstep : stepMotors a s = .error (s, e) := by simp [stepMotors, hb]
    rw [hstep]
    exact herr_s e
  | ok b =>
    cases b with
    | false =>
      have hstep : stepMotors a s = .ok s := by simp [stepMotors, hb]
      rw [hstep]
      exact hok_s
    | true =>
      cases hact : pyIndex a "motors" with
      | error e =>
        have hstep : stepMotors a s = .error (s, e) := by simp [stepMotors, hb, hact]
        rw [hstep]
        exact herr_s e
      | ok act =>
        cases hia : is_section_active act "motors" with
        | error e =>
          have hstep : stepMotors a s = .error (s, e) := by
            simp [stepMotors, hb, hact, hia]
          rw [hstep]
          exact herr_s e
        | ok active =>
          by_cases htr : truthy active = true
          · cases act with
            | obj items =>
              have hstep : stepMotors a s = motorsLoop items s := by
                simp [stepMotors, hb, hact, hia, htr]
              rw [hstep]
              exact motorsLoop_inv items hs
            | null =>
              have hstep : stepMotors a s = .error (s, .attributeError) := by
                simp [stepMotors, hb, hact, hia, htr]
              rw [hstep]
              exact herr_s .attributeError
            | bool b2 =>
              have hstep : stepMotors a s = .error (s, .attributeError) := by
                simp [stepMotors, hb, hact, hia, htr]
              rw [hstep]
              exact herr_s .attributeError
            | int n =>
              have hstep : stepMotors a s = .error (s, .attributeError) := by
                simp [stepMotors, hb, hact, hia, htr]
              rw [hstep]
              exact herr_s .attributeError
            | str s2 =>
              have hstep : stepMotors a s = .error (s, .attributeError) := by
                simp [stepMotors, hb, hact, hia, htr]
              rw [hstep]
              exact herr_s .attributeError
            | list xs =>
              have hstep : stepMotors a s = .error (s, .attributeError) := by
                simp [stepMotors, hb, hact, hia, htr]
              rw [hstep]
              exact herr_s .attributeError
          · have hstep : stepMotors a s = .ok s := by
              simp [stepMotors, hb, hact, hia, htr]
            rw [hstep]
            exact hok_s

/-- Feeding a canonical tree back through the motors block is a no-op
(or raises, at the unchanged state, inside the activity scan). -/
theorem stepMotors_fix {s : Value} (hs : scInv s) :
    stepMotors s s = .ok s ∨ ∃ e, stepMotors s s = .error (s, e) := by
  obtain ⟨m, hin, hmo, hkeys, hall, hfixm, hrepl⟩ := scInv_motors_view hs
  have hnodup : (keys m).Nodup := by
    rw [hkeys]
    decide
  cases hia : is_section_active (.obj m) "motors" with
  | error e =>
    exact Or.inr ⟨e, by simp [stepMotors, hin, hmo, hia]⟩
  | ok active =>
    by_cases htr : truthy active = true
    · have hloop : motorsLoop m s = .ok s :=
        motorsLoop_fix hmo hfixm hall m
          (fun kv hkv => alookup_of_nodup_mem hnodup (by simpa using hkv))
      exact Or.inl (by simp [stepMotors, hin, hmo, hia, htr, hloop])
    · exact Or.inl (by simp [stepMotors, hin, hmo, hia, htr])

/-- Every possible outcome of the massage phase: state unchanged, an error
at the unchanged state, or the massage sub-dict field-merged. -/
theorem massagePhase_results (p s : Value) :
    massagePhase p s = .ok s ∨ (∃ e, massagePhase p s = .error (s, e)) ∨
    (∃ pn curl upd, pyIndex s "pneumatic" = .ok pn ∧
      pyIndex pn "massage" = .ok (.obj curl) ∧
      massagePhase p s =
        .ok (setTop s "pneumatic" (setTop pn "massage" (.obj (updList curl upd))))) := by
  cases hbm : pyIn "massage" p with
  | error e => exact Or.inr (Or.inl ⟨e, by simp [massagePhase, hbm]⟩)
  | ok b =>
    cases b with
    | false => exact Or.inl (by simp [massagePhase, hbm])
    | true =>
      cases hms : pyIndex p "massage" with
      | error e => exact Or.inr (Or.inl ⟨e, by simp [massagePhase, hbm, hms]⟩)
      | ok msv =>
        cases hia : is_section_active msv "massage" with
        | error e =>
          exact Or.inr (Or.inl ⟨e, by simp [massagePhase, hbm, hms, hia]⟩)
        | ok active =>
          by_cases htr : truthy active = true
          · cases hpn : pyIndex s "pneumatic" with
            | error e =>
              exact Or.inr (Or.inl ⟨e, by simp [massagePhase, hbm, hms, hia, htr, hpn]⟩)
            | ok pn =>
              cases hcur : pyIndex pn "massage" with
              | error e =>
                exact Or.inr (Or.inl ⟨e, by
                  simp [massagePhase, hbm, hms, hia, htr, hpn, hcur]⟩)
              | ok cur =>
                cases hupd : dictUpdate cur msv with
                | error e =>
                  exact Or.inr (Or.inl ⟨e, by
                    simp [massagePhase, hbm, hms, hia, htr, hpn, hcur, hupd]⟩)
                | ok merged =>
                  cases cur with
                  | obj curl =>
                    obtain ⟨m2, rfl, rfl⟩ := dictUpdate_ok_shape hupd
                    exact Or.inr (Or.inr ⟨pn, curl, m2, rfl, hcur, by
                      simp [massagePhase, hbm, hms, hia, htr, hpn, hcur, hupd]⟩)
                  | null => simp [dictUpdate] at hupd
                  | bool b2 => simp [dictUpdate] at hupd
                  | int n => simp [dictUpdate] at hupd
                  | str s2 => simp [dictUpdate] at hupd
                  | list xs => simp [dictUpdate] at hupd
          · exact Or.inl (by simp [massagePhase, hbm, hms, hia, htr])

/-- Every possible outcome of the adjustement phase. -/
theorem adjustPhase_results (p s : Value) :
    adjustPhase p s = .ok s ∨ (∃ e, adjustPhase p s = .error (s, e)) ∨
    (∃ pn curl upd, pyIndex s "pneumatic" = .ok pn ∧
      pyIndex pn "adjustement" = .ok (.obj curl) ∧
      adjustPhase p s =
        .ok (setTop s "pneumatic" (setTop pn "adjustement" (.obj (updList curl upd))))) := by
  cases hbm : pyIn "adjustement" p with
  | error e => exact Or.inr (Or.inl ⟨e, by simp [adjustPhase, hbm]⟩)
  | ok b =>
    cases b with
    | false => exact Or.inl (by simp [adjustPhase, hbm])
    | true =>
      cases hms : pyIndex p "adjustement" with
      | error e => exact Or.inr (Or.inl ⟨e, by simp [adjustPhase, hbm, hms]⟩)
      | ok msv =>
        cases hia : is_section_active msv "pneumatic_adjustment" with
        | error e =>
          exact Or.inr (Or.inl ⟨e, by simp [adjustPhase, hbm, hms, hia]⟩)
        | ok active =>
          by_cases htr : truthy active = true
          · cases hpn : pyIndex s "pneumatic" with
            | error e =>
              exact Or.inr (Or.inl ⟨e, by simp [adjustPhase, hbm, hms, hia, htr, hpn]⟩)
            | ok pn =>
              cases hcur : pyIndex pn "adjustement" with
              | error e =>
                exact Or.inr (Or.inl ⟨e, by
                  simp [adjustPhase, hbm, hms, hia, htr, hpn, hcur]⟩)
              | ok cur =>
                cases hupd : dictUpdate cur msv with
                | error e =>
                  exact Or.inr (Or.inl ⟨e, by
                    simp [adjustPhase, hbm, hms, hia, htr, hpn, hcur, hupd]⟩)
                | ok merged =>
                  cases cur with
                  | obj curl =>
                    obtain ⟨m2, rfl, rfl⟩ := dictUpdate_ok_shape hupd
                    exact Or.inr (Or.inr ⟨pn, curl, m2, rfl, hcur, by
                      simp [adjustPhase, hbm, hms, hia, htr, hpn, hcur, hupd]⟩)
                  | null => simp [dictUpdate] at hupd
                  | bool b2 => simp [dictUpdate] at hupd
                  | int n => simp [dictUpdate] at hupd
                  | str s2 => simp [dictUpdate] at hupd
                  | list xs => simp [dictUpdate] at hupd
          · exact Or.inl (by simp [adjustPhase, hbm, hms, hia, htr])

/-- The massage phase keeps the invariant. -/
theorem massagePhase_inv {p s : Value} (hs : scInv s) :
    (∀ s', massagePhase p s = .ok s' → scInv s') ∧
    (∀ se e, massagePhase p s = .error (se, e) → scInv se) := by
  obtain ⟨adj, ms, hin, hp, hnadj, hnms, hrepm, hfixm, hrepa, hfixa⟩ :=
    scInv_pneumatic_view hs
  constructor
  · intro s' hok
    rcases massagePhase_results p s with h | ⟨e, h⟩ | ⟨pn, curl, upd, hpn, hcur, h⟩
    · rw [h] at hok
      cases hok
      exact hs
    · rw [h] at hok
      simp at hok
    · rw [h] at hok
      cases hok
      rw [hp] at hpn
      cases hpn
      simp [pyIndex, alookup] at hcur
      subst hcur
      exact hrepm _ (updList_nodup hnms)
  · intro se e herr
    rcases massagePhase_results p s with h | ⟨e2, h⟩ | ⟨pn, curl, upd, hpn, hcur, h⟩
    · rw [h] at herr
      simp at herr
    · rw [h] at herr
      simp at herr
      obtain ⟨h1, _⟩ := herr
      subst h1
      exact hs
    · rw [h] at herr
      simp at herr

/-- The adjustement phase keeps the invariant. -/
theorem adjustPhase_inv {p s : Value} (hs : scInv s) :
    (∀ s', adjustPhase p s = .ok s' → scInv s') ∧
    (∀ se e, adjustPhase p s = .error (se, e) → scInv se) := by
  obtain ⟨adj, ms, hin, hp, hnadj, hnms, hrepm, hfixm, hrepa, hfixa⟩ :=
    scInv_pneumatic_view hs
  constructor
  · intro s' hok
    rcases adjustPhase_results p s with h | ⟨e, h⟩ | ⟨pn, curl, upd, hpn, hcur, h⟩
    · rw [h] at hok
      cases hok
      exact hs
    · rw [h] at hok
      simp at hok
    · rw [h] at hok
      cases hok
      rw [hp] at hpn
      cases hpn
      simp [pyIndex, alookup] at hcur
      subst hcur
      exact hrepa _ (updList_nodup hnadj)
  · intro se e herr
    rcases adjustPhase_results p s with h | ⟨e2, h⟩ | ⟨pn, curl, upd, hpn, hcur, h⟩
    · rw [h] at herr
      simp at herr
    · rw [h] at herr
      simp at herr
      obtain ⟨h1, _⟩ := herr
      subst h1
      exact hs
    · rw [h] at herr
      simp at herr

/-- The pneumatic block keeps the invariant. -/
theorem stepPneumatic_inv {a s : Value} (hs : scInv s) :
    (∀ s', stepPneumatic a s = .ok s' → scInv s') ∧
    (∀ se e, stepPneumatic a s = .error (se, e) → scInv se) := by
  cases hb : pyIn "pneumatic" a with
  | error e =>
    have hstep : stepPneumatic a s = .error (s, e) := by simp [stepPneumatic, hb]
    rw [hstep]
    constructor
    · intro s' hok
      simp at hok
    · intro se e2 herr
      simp at herr
      obtain ⟨h1, _⟩ := herr
      subst h1
      exact hs
  | ok b =>
    cases b with
    | false =>
      have hstep : stepPneumatic a s = .ok s := by simp [stepPneumatic, hb]
      rw [hstep]
      constructor
      · intro s' hok
        cases hok
        exact hs
      · intro se e herr
        simp at herr
    | true =>
      cases hpx : pyIndex a "pneumatic" with
      | error e =>
        have hstep : stepPneumatic a s = .error (s, e) := by
          simp [stepPneumatic, hb, hpx]
        rw [hstep]
        constructor
        · intro s' hok
          simp at hok
        · intro se e2 herr
          simp at herr
          obtain ⟨h1, _⟩ := herr
          subst h1
          exact hs
      | ok p =>
        have hstep : stepPneumatic a s =
            massagePhase p s >>= adjustPhase p := by
          simp [stepPneumatic, hb, hpx]
        rw [hstep]
        have hmi := massagePhase_inv (p := p) hs
        constructor
        · intro s' hok
          obtain ⟨s1, h1, h2⟩ := exceptBindOk hok
          exact (adjustPhase_inv (hmi.1 s1 h1)).1 s' h2
        · intro se e herr
          cases hm1 : massagePhase p s with
          | error pe =>
            rw [hm1] at herr
            simp at herr
            subst herr
            exact hmi.2 se e hm1
          | ok s1 =>
            rw [hm1] at herr
            simp at herr
            exact (adjustPhase_inv (hmi.1 s1 hm1)).2 se e herr

/-- Feeding a canonical tree back through the pneumatic block is a no-op
(or raises at the unchanged state inside the adjustement activity test). -/
theorem stepPneumatic_fix {s : Value} (hs : scInv s) :
    stepPneumatic s s = .ok s ∨ ∃ e, stepPneumatic s s = .error (s, e) := by
  obtain ⟨adj, ms, hin, hp, hnadj, hnms, hrepm, hfixm, hrepa, hfixa⟩ :=
    scInv_pneumatic_view hs
  have hbm : pyIn "massage"
      (Value.obj [("adjustement", .obj adj), ("massage", .obj ms)]) = .ok true := by
    simp [pyIn, alookup]
  have hms2 : pyIndex
      (Value.obj [("adjustement", .obj adj), ("massage", .obj ms)]) "massage" =
      .ok (.obj ms) := by
    simp [pyIndex, alookup]
  have hba : pyIn "adjustement"
      (Value.obj [("adjustement", .obj adj), ("massage", .obj ms)]) = .ok true := by
    simp [pyIn, alookup]
  have hadj2 : pyIndex
      (Value.obj [("adjustement", .obj adj), ("massage", .obj ms)]) "adjustement" =
      .ok (.obj adj) := by
    simp [pyIndex, alookup]
  obtain ⟨av, hia⟩ : ∃ av, is_section_active (.obj ms) "massage" = .ok av := by
    by_cases hc : truthy (.obj ms) = false
    · exact ⟨.bool false, by simp [is_section_active, hc]⟩
    · exact ⟨(alookup ms "is_active").getD (.bool false), by
        simp [is_section_active, hc, mGet]⟩
  have hmp : massagePhase
      (Value.obj [("adjustement", .obj adj), ("massage", .obj ms)]) s = .ok s := by
    by_cases htr : truthy av = true
    · have hupd := dictUpdate_self hnms
      simp [massagePhase, hbm, hms2, hia, htr, hp, hupd, hfixm]
    · simp [massagePhase, hbm, hms2, hia, htr]
  cases hia2 : is_section_active (.obj adj) "pneumatic_adjustment" with
  | error e =>
    refine Or.inr ⟨e, ?_⟩
    simp [stepPneumatic, hin, hp, hmp, adjustPhase, hba, hadj2, hia2]
  | ok active =>
    by_cases htr : truthy active = true
    · have hupd := dictUpdate_self hnadj
      refine Or.inl ?_
      simp [stepPneumatic, hin, hp, hmp, adjustPhase, hba, hadj2, hia2, htr, hupd, hfixa]
    · refine Or.inl ?_
      simp [stepPneumatic, hin, hp, hmp, adjustPhase, hba, hadj2, hia2, htr]

/-- On a result dict whose only key is `seatCommand`, the ventilation shim
either skips or raises `KeyError` on `result["thermal"]`. -/
theorem legacyVent_id (a x : Value) :
    legacyVent a (defaultCopy x) = .ok (defaultCopy x) ∨
    ∃ e, legacyVent a (defaultCopy x) = .error e := by
  have hpi : pyIndex (defaultCopy x) "thermal" = .error .keyError := by
    simp [pyIndex, defaultCopy, alookup]
  cases hv : mGet a "ventilation" .null with
  | error e => exact Or.inr ⟨e, by simp [legacyVent, hv]⟩
  | ok v =>
    cases v with
    | bool b => exact Or.inr ⟨.keyError, by simp [legacyVent, hv, hpi]⟩
    | null => exact Or.inl (by simp [legacyVent, hv])
    | int n => exact Or.inl (by simp [legacyVent, hv])
    | str s2 => exact Or.inl (by simp [legacyVent, hv])
    | list xs => exact Or.inl (by simp [legacyVent, hv])
    | obj kvs => exact Or.inl (by simp [legacyVent, hv])

/-- On a result dict whose only key is `seatCommand`, the vibe shim either
skips or raises `KeyError` on `result["vibe"]`. -/
theorem legacyVibe_id (a x : Value) :
    legacyVibe a (defaultCopy x) = .ok (defaultCopy x) ∨
    ∃ e, legacyVibe a (defaultCopy x) = .error e := by
  have hpi : pyIndex (defaultCopy x) "vibe" = .error .keyError := by
    simp [pyIndex, defaultCopy, alookup]
  cases hv : mGet a "vibe" .null with
  | error e => exact Or.inr ⟨e, by simp [legacyVibe, hv]⟩
  | ok v =>
    cases v with
    | bool b =>
      cases b with
      | true => exact Or.inr ⟨.keyError, by simp [legacyVibe, hv, hpi]⟩
      | false => exact Or.inl (by simp [legacyVibe, hv])
    | null => exact Or.inl (by simp [legacyVibe, hv])
    | int n => exact Or.inl (by simp [legacyVibe, hv])
    | str s2 => exact Or.inl (by simp [legacyVibe, hv])
    | list xs => exact Or.inl (by simp [legacyVibe, hv])
    | obj kvs => exact Or.inl (by simp [legacyVibe, hv])

/-- On a result dict whose only key is `seatCommand`, the massage shim
either skips or raises `KeyError` on `result["pneumatic"]`. -/
theorem legacyMassage_id (a x : Value) :
    legacyMassage a (defaultCopy x) = .ok (defaultCopy x) ∨
    ∃ e, legacyMassage a (defaultCopy x) = .error e := by
  have hpi : pyIndex (defaultCopy x) "pneumatic" = .error .keyError := by
    simp [pyIndex, defaultCopy, alookup]
  cases hv : mGet a "massage" .null with
  | error e => exact Or.inr ⟨e, by simp [legacyMassage, hv]⟩
  | ok v =>
    cases v with
    | bool b => exact Or.inr ⟨.keyError, by simp [legacyMassage, hv, hpi]⟩
    | null => exact Or.inl (by simp [legacyMassage, hv])
    | int n => exact Or.inl (by simp [legacyMassage, hv])
    | str s2 => exact Or.inl (by simp [legacyMassage, hv])
    | list xs => exact Or.inl (by simp [legacyMassage, hv])
    | obj kvs => exact Or.inl (by simp [legacyMassage, hv])

/-- If the legacy shim returns normally on a one-key result dict, it
returned it unchanged (each triggered branch would have raised). -/
theorem handle_legacy_id {a x r : Value}
    (h : handle_legacy_fields a (defaultCopy x) = .ok r) : r = defaultCopy x := by
  rw [handle_legacy_fields] at h
  rcases legacyVent_id a x with h1 | ⟨e, h1⟩
  · rw [h1] at h
    simp at h
    rcases legacyVibe_id a x with h2 | ⟨e, h2⟩
    · rw [h2] at h
      simp at h
      rcases legacyMassage_id a x with h3 | ⟨e, h3⟩
      · rw [h3] at h
        cases h
        rfl
      · rw [h3] at h
        simp at h
    · rw [h2] at h
      simp at h
  · rw [h1] at h
    simp at h

/-- A canonical tree triggers none of the legacy branches: no top-level
`ventilation` or `massage` key, and `vibe` maps to a dict, not a bool. -/
theorem handle_legacy_fix {s : Value} (hs : scInv s) (r : Value) :
    handle_legacy_fields s r = .ok r := by
  obtain ⟨hvent, hmass, _⟩ := scInv_top_view hs
  obtain ⟨v, hvibe⟩ := scInv_vibe_view hs
  simp [handle_legacy_fields, legacyVent, legacyVibe, legacyMassage,
    hvent, hmass, hvibe]

/-- Extraction on a wrapped canonical command projects the inner tree. -/
theorem extract_defaultCopy (loads : String → Except PyErr Value) (s : Value) :
    extract_json_from_response loads (defaultCopy s) = s := by
  simp [extract_json_from_response, defaultCopy, alookup]

/-- Whatever happens inside the try-body, the returned command is the
fresh outer dict around the final shared tree. -/
theorem processBody_ok_shape {loads : String → Except PyErr Value}
    {s f s' r : Value} (h : processBody loads s f = .ok (s', r)) :
    r = defaultCopy s' := by
  by_cases hta : truthy (extract_json_from_response loads f) = false
  · rw [processBody] at h
    simp [hta] at h
    obtain ⟨h1, h2⟩ := h
    rw [← h1, ← h2]
  · rw [processBody] at h
    simp [hta] at h
    obtain ⟨s1, h1, h⟩ := exceptBindOk h
    obtain ⟨s2, h2, h⟩ := exceptBindOk h
    obtain ⟨s3, h3, h⟩ := exceptBindOk h
    obtain ⟨s4, h4, h⟩ := exceptBindOk h
    obtain ⟨s5, h5, h⟩ := exceptBindOk h
    cases hleg : handle_legacy_fields (extract_json_from_response loads f)
        (defaultCopy s5) with
    | error e =>
      rw [hleg] at h
      simp at h
    | ok r2 =>
      rw [hleg] at h
      simp at h
      obtain ⟨hs5, hr2⟩ := h
      rw [← hr2, handle_legacy_id hleg, hs5]

/-- The try-body keeps the structural invariant, whether it returns or
raises. -/
theorem processBody_inv {loads : String → Except PyErr Value} {s f : Value}
    (hs : scInv s) :
    (∀ s' r, processBody loads s f = .ok (s', r) → scInv s') ∧
    (∀ s' e, processBody loads s f = .error (s', e) → scInv s') := by
  by_cases hta : truthy (extract_json_from_response loads f) = false
  · constructor
    · intro s' r h
      rw [processBody] at h
      simp [hta] at h
      rw [← h.1]
      exact hs
    · intro s' e h
      rw [processBody] at h
      simp [hta] at h
  · have hbody : processBody loads s f =
        (stepSection "vibe" "vibe" (extract_json_from_response loads f) s >>= fun s1 =>
         stepSection "thermal" "thermal" (extract_json_from_response loads f) s1 >>= fun s2 =>
         stepMotors (extract_json_from_response loads f) s2 >>= fun s3 =>
         stepPneumatic (extract_json_from_response loads f) s3 >>= fun s4 =>
         stepSection "seatbelt" "seatbelt" (extract_json_from_response loads f) s4 >>= fun s5 =>
         match handle_legacy_fields (extract_json_from_response loads f) (defaultCopy s5) with
         | .ok r => .ok (s5, r)
         | .error e => .error (s5, e)) := by
      rw [processBody]
      simp [hta]
    set A := extract_json_from_response loads f with hA
    have inv1 := stepSection_inv (a := A) hs "vibe" "vibe" (Or.inl rfl)
    constructor
    · intro s' r h
      rw [hbody] at h
      obtain ⟨s1, h1, h⟩ := exceptBindOk h
      have hs1 := inv1.1 s1 h1
      obtain ⟨s2, h2, h⟩ := exceptBindOk h
      have hs2 := (stepSection_inv hs1 "thermal" "thermal" (Or.inr (Or.inl rfl))).1 s2 h2
      obtain ⟨s3, h3, h⟩ := exceptBindOk h
      have hs3 := (stepMotors_inv hs2).1 s3 h3
      obtain ⟨s4, h4, h⟩ := exceptBindOk h
      have hs4 := (stepPneumatic_inv hs3).1 s4 h4
      obtain ⟨s5, h5, h⟩ := exceptBindOk h
      have hs5 := (stepSection_inv hs4 "seatbelt" "seatbelt" (Or.inr (Or.inr rfl))).1 s5 h5
      cases hleg : handle_legacy_fields A (defaultCopy s5) with
      | error e =>
        rw [hleg] at h
        simp at h
      | ok r2 =>
        rw [hleg] at h
        simp at h
        rw [← h.1]
        exact hs5
    · intro s' e h
      rw [hbody] at h
      cases h1 : stepSection "vibe" "vibe" A s with
      | error pe =>
        rw [h1] at h
        simp at h
        obtain ⟨pe1, pe2⟩ := pe
        simp at h
        rw [← h.1]
        exact inv1.2 pe1 pe2 h1
      | ok s1 =>
        have hs1 := inv1.1 s1 h1
        rw [h1] at h
        simp at h
        have inv2 := stepSection_inv hs1 "thermal" "thermal" (Or.inr (Or.inl rfl)) (a := A)
        cases h2 : stepSection "thermal" "thermal" A s1 with
        | error pe =>
          rw [h2] at h
          simp at h
          obtain ⟨pe1, pe2⟩ := pe
          simp at h
          rw [← h.1]
          exact inv2.2 pe1 pe2 h2
        | ok s2 =>
          have hs2 := inv2.1 s2 h2
          rw [h2] at h
          simp at h
          cases h3 : stepMotors A s2 with
          | error pe =>
            rw [h3] at h
            simp at h
            obtain ⟨pe1, pe2⟩ := pe
            simp at h
            rw [← h.1]
            exact (stepMotors_inv hs2).2 pe1 pe2 h3
          | ok s3 =>
            have hs3 := (stepMotors_inv hs2).1 s3 h3
            rw [h3] at h
            simp at h
            cases h4 : stepPneumatic A s3 with
            | error pe =>
              rw [h4] at h
              simp at h
              obtain ⟨pe1, pe2⟩ := pe
              simp at h
              rw [← h.1]
              exact (stepPneumatic_inv hs3).2 pe1 pe2 h4
            | ok s4 =>
              have hs4 := (stepPneumatic_inv hs3).1 s4 h4
              rw [h4] at h
              simp at h
              have inv5 := stepSection_inv hs4 "seatbelt" "seatbelt"
                (Or.inr (Or.inr rfl)) (a := A)
              cases h5 : stepSection "seatbelt" "seatbelt" A s4 with
              | error pe =>
                rw [h5] at h
                simp at h
                obtain ⟨pe1, pe2⟩ := pe
                simp at h
                rw [← h.1]
                exact inv5.2 pe1 pe2 h5
              | ok s5 =>
                have hs5 := inv5.1 s5 h5
                rw [h5] at h
                simp at h
                cases hleg : handle_legacy_fields A (defaultCopy s5) with
                | error e2 =>
                  rw [hleg] at h
                  simp at h
                  rw [← h.1]
                  exact hs5
                | ok r2 =>
                  rw [hleg] at h
                  simp at h

/-- Feeding the default copy of a canonical tree back through the
try-body returns it unchanged (or raises with the tree unchanged). -/
theorem processBody_fix {loads : String → Except PyErr Value} {s : Value}
    (hs : scInv s) :
    processBody loads s (defaultCopy s) = .ok (s, defaultCopy s) ∨
    ∃ e, processBody loads s (defaultCopy s) = .error (s, e) := by
  have hA := extract_defaultCopy loads s
  have htr : truthy s = true := (scInv_top_view hs).2.2
  have hbody : processBody loads s (defaultCopy s) =
      (stepSection "vibe" "vibe" s s >>= fun s1 =>
       stepSection "thermal" "thermal" s s1 >>= fun s2 =>
       stepMotors s s2 >>= fun s3 =>
       stepPneumatic s s3 >>= fun s4 =>
       stepSection "seatbelt" "seatbelt" s s4 >>= fun s5 =>
       match handle_legacy_fields s (defaultCopy s5) with
       | .ok r => .ok (s5, r)
       | .error e => .error (s5, e)) := by
    rw [processBody]
    simp [hA, htr]
  rw [hbody]
  rcases stepSection_fix hs "vibe" "vibe" (Or.inl rfl) with h1 | ⟨e, h1⟩
  swap
  · exact Or.inr ⟨e, by rw [h1]; simp⟩
  rw [h1]
  simp only [ok_bind]
  rcases stepSection_fix hs "thermal" "thermal" (Or.inr (Or.inl rfl)) with h2 | ⟨e, h2⟩
  swap
  · exact Or.inr ⟨e, by rw [h2]; simp⟩
  rw [h2]
  simp only [ok_bind]
  rcases stepMotors_fix hs with h3 | ⟨e, h3⟩
  swap
  · exact Or.inr ⟨e, by rw [h3]; simp⟩
  rw [h3]
  simp only [ok_bind]
  rcases stepPneumatic_fix hs with h4 | ⟨e, h4⟩
  swap
  · exact Or.inr ⟨e, by rw [h4]; simp⟩
  rw [h4]
  simp only [ok_bind]
  rcases stepSection_fix hs "seatbelt" "seatbelt" (Or.inr (Or.inr rfl)) with h5 | ⟨e, h5⟩
  swap
  · exact Or.inr ⟨e, by rw [h5]; simp⟩
  rw [h5]
  simp only [ok_bind]
  rw [handle_legacy_fix hs (defaultCopy s)]
  exact Or.inl rfl

/-- The returned command is always the fresh outer dict around the final
shared tree. -/
theorem process_shape (loads : String → Except PyErr Value) (s f : Value) :
    (process_llm_response loads s f).2 =
      defaultCopy (process_llm_response loads s f).1 := by
  cases hb : processBody loads s f with
  | ok p =>
    obtain ⟨s', r⟩ := p
    simp [process_llm_response, hb]
    exact processBody_ok_shape hb
  | error p =>
    obtain ⟨s', e⟩ := p
    simp [process_llm_response, hb]

/-- Normalization keeps the structural invariant of the shared tree. -/
theorem process_inv {loads : String → Except PyErr Value} {s f : Value}
    (hs : scInv s) : scInv (process_llm_response loads s f).1 := by
  cases hb : processBody loads s f with
  | ok p =>
    obtain ⟨s', r⟩ := p
    simp [process_llm_response, hb]
    exact (processBody_inv hs).1 s' r hb
  | error p =>
    obtain ⟨s', e⟩ := p
    simp [process_llm_response, hb]
    exact (processBody_inv hs).2 s' e hb

/-- Normalizing the default copy of a canonical tree is the identity:
the merge rewrites every active section with its own values, and even a
raising path falls back to the same default copy. -/
theorem process_fix {loads : String → Except PyErr Value} {s : Value}
    (hs : scInv s) :
    process_llm_response loads s (defaultCopy s) = (s, defaultCopy s) := by
  rcases @processBody_fix loads s hs with h | ⟨e, h⟩
  · simp [process_llm_response, h]
  · simp [process_llm_response, h]

/-! ## Claim theorems -/

/-- C1 (counterexample): the spec claims every motor percentage of the
normalized command is an integer within [0,100] even when the fragment
supplies one outside that range; but the fragment naming Track with
percentage 150 normalizes to a command whose Track percentage is 150. -/
theorem C1_counterexample :
    getIntPath (process_llm_response noLoads defaultSC (fragTrack 150)).2
      ["seatCommand", "motors", "Track", "percentage"] = some 150 ∧
    motorPercentagesWithinRange
      (process_llm_response noLoads defaultSC (fragTrack 150)).2 = false := by
  constructor
  · rfl
  · rfl

/-- C1 (amended): motor percentages are copied through the merge
verbatim, with no clamping: a fragment naming Track with any positive
percentage p yields a command whose Track percentage is exactly p, so it
lies in [0,100] only when the supplied value does. -/
theorem C1_amended (p : Int) (hp : 0 < p) :
    getIntPath (process_llm_response noLoads defaultSC (fragTrack p)).2
      ["seatCommand", "motors", "Track", "percentage"] = some p := by
  have hd : decide (0 < p) = true := decide_eq_true hp
  simp [process_llm_response, processBody, extract_json_from_response,
    stepSection, stepMotors, stepPneumatic, massagePhase, adjustPhase,
    motorsLoop, handle_legacy_fields, legacyVent, legacyVibe, legacyMassage,
    is_section_active, anyGtZero, cmpGtZero, pyIn, pyIndex, mGet, alookup,
    truthy, dictUpdate, updList, setKey, setTop, liftE, defaultSC,
    defaultMotor, defaultCopy, fragTrack, getIntPath, hd, noLoads]

/-- C1 (witness for the amended claim at p = 150). -/
theorem C1_amended_witness :
    0 < (150 : Int) ∧
    getIntPath (process_llm_response noLoads defaultSC (fragTrack 150)).2
      ["seatCommand", "motors", "Track", "percentage"] = some 150 :=
  ⟨by decide, C1_amended 150 (by decide)⟩

/-- C2: normalization is total — for every fragment (and every behaviour
of the JSON parser) the result carries all five canonical sections, and a
fragment whose extraction is falsy (no recognized content) resolves to
the all-neutral canonical command. -/
theorem C2_normalize_total (loads : String → Except PyErr Value) (f : Value) :
    hasCanonicalKeys (process_llm_response loads defaultSC f).2 = true ∧
    (truthy (extract_json_from_response loads f) = false →
      (process_llm_response loads defaultSC f).2 = DEFAULT_RESPONSE_STRUCTURE) := by
  constructor
  · have hshape := process_shape loads defaultSC f
    have hinv : scInv (process_llm_response loads defaultSC f).1 :=
      process_inv scInv_defaultSC
    rw [hshape]
    obtain ⟨v, adj, ms, t, m, sb, heq, -, -, -, -, -, -, -⟩ := hinv
    rw [heq]
    simp [hasCanonicalKeys, getPath, defaultCopy, alookup]
  · intro hta
    simp [process_llm_response, processBody, hta, DEFAULT_RESPONSE_STRUCTURE]

/-- C2 (witness at the non-JSON string "hello", whose extraction is the
empty dict). -/
theorem C2_normalize_total_witness :
    hasCanonicalKeys (process_llm_response noLoads defaultSC (.str "hello")).2 = true ∧
    (process_llm_response noLoads defaultSC (.str "hello")).2 =
      DEFAULT_RESPONSE_STRUCTURE := by
  have h := C2_normalize_total noLoads (.str "hello")
  exact ⟨h.1, h.2 (by rfl)⟩

/-- C3: `process_llm_response` is not a pure function of its argument:
after normalizing a thermal heatingLevel-50 fragment, normalizing an
input with no recognized sections returns a command still carrying
heating level 50 instead of the all-neutral default (the shallow copy
shares the inner tree of the module-level default). -/
theorem C3_shared_default_mutated :
    getIntPath (process_llm_response noLoads
        (process_llm_response noLoads defaultSC fragThermal50).1 (.obj [])).2
      ["seatCommand", "thermal", "heatingLevel"] = some 50 ∧
    getIntPath DEFAULT_RESPONSE_STRUCTURE
      ["seatCommand", "thermal", "heatingLevel"] = some 0 ∧
    (process_llm_response noLoads
        (process_llm_response noLoads defaultSC fragThermal50).1 (.obj [])).2 ≠
      DEFAULT_RESPONSE_STRUCTURE := by
  refine ⟨rfl, rfl, ?_⟩
  intro h
  have h1 : getIntPath (process_llm_response noLoads
      (process_llm_response noLoads defaultSC fragThermal50).1 (.obj [])).2
      ["seatCommand", "thermal", "heatingLevel"] = some 50 := rfl
  rw [h] at h1
  exact absurd h1 (by decide)

/-- C4 (counterexample): the call-tool envelope is not interpreted as a
tool invocation — `process_query` has no `call_tool` branch, so the reply
lands in the invalid-decision (400) outcome. -/
theorem C4_counterexample :
    interpret_decision loadsC4 ctTextC4 = Decision.invalidDecision := by
  rfl

/-- C4 (amended): the direct-response envelope maps to the direct answer
"ok" and non-JSON text "hello" maps to the direct answer "hello", as
claimed; but the call-tool envelope maps to the invalid-decision error,
not to a tool invocation (only a `seatCommand` key routes to a tool). -/
theorem C4_amended :
    interpret_decision loadsC4 drTextC4 = .directAnswer (.str "ok") ∧
    interpret_decision loadsC4 "hello" = .directAnswer (.str "hello") ∧
    interpret_decision loadsC4 ctTextC4 = .invalidDecision := by
  refine ⟨?_, ?_, ?_⟩ <;> rfl

/-- C5 (counterexample): with a cached snapshot, a stale read (age 6 > 5)
whose reload raises does NOT retain the previous snapshot: the loader
returns the empty dict, which replaces the cache, and the caller gets
"Metadata unavailable" instead of the formatted previous snapshot. -/
theorem C5_counterexample :
    (get_current_metadata c5App c5Handler c5Env 6).2 = "Metadata unavailable" ∧
    (get_current_metadata c5App c5Handler c5Env 6).1.1.cached_metadata = .obj [] ∧
    format_metadata_for_prompt metaSnapshot ≠ "Metadata unavailable" := by
  refine ⟨rfl, rfl, by decide⟩

/-- C5 (amended): a stale `get` always attempts a reload; when the
telemetry file is missing the previous handler snapshot is served, but
when the file was rewritten and the read/parse raises, the empty dict
replaces the cache and the caller receives "Metadata unavailable". -/
theorem C5_amended (a : AppCacheState) (h : HandlerState) (env : TelemetryEnv)
    (now : Int) (hstale : now - a.last_metadata_update > 5) :
    (env.fileExists = false →
      (get_current_metadata a h env now).1.1.cached_metadata =
        (if truthy h.last_metadata = true then h.last_metadata else .obj [])) ∧
    (env.fileExists = true → env.mtime ≠ h.last_modified_time →
      ∀ e, env.parse = .error e →
        (get_current_metadata a h env now).2 = "Metadata unavailable" ∧
        (get_current_metadata a h env now).1.1.cached_metadata = .obj []) := by
  have ht2 : truthy (Value.obj []) = false := rfl
  constructor
  · intro hfe
    by_cases htm : truthy h.last_metadata = true
    · simp [get_current_metadata, hstale, refresh_metadata_cache,
        load_latest_metadata, hfe, htm]
    · simp [get_current_metadata, hstale, refresh_metadata_cache,
        load_latest_metadata, hfe, htm, ht2]
  · intro hfe hmt e hpe
    constructor
    · simp [get_current_metadata, hstale, refresh_metadata_cache,
        load_latest_metadata, hfe, hmt, hpe, ht2]
    · simp [get_current_metadata, hstale, refresh_metadata_cache,
        load_latest_metadata, hfe, hmt, hpe, ht2]

/-- C5 (witness at the counterexample inputs, age 6, parse raising). -/
theorem C5_amended_witness :
    (get_current_metadata c5App c5Handler c5Env 6).2 = "Metadata unavailable" ∧
    (get_current_metadata c5App c5Handler c5Env 6).1.1.cached_metadata = .obj [] := by
  have h := C5_amended c5App c5Handler c5Env 6 (by decide)
  exact h.2 rfl (by decide) .typeError rfl

/-- C6: the legacy boolean-ventilation shim is broken — on the fragment
with boolean ventilation=true the shim indexes `result["thermal"]` on the
top-level result (whose only key is `seatCommand`), raising `KeyError`;
the catch-all then returns the default copy, so the returned command has
ventilation level 0, not the fixed level 3 the spec (and the shim's own
docstring) intend. -/
theorem C6_legacy_ventilation_keyerror :
    processBody noLoads defaultSC fragLegacyVent =
      .error (defaultSC, .keyError) ∧
    getIntPath (process_llm_response noLoads defaultSC fragLegacyVent).2
      ["seatCommand", "thermal", "ventilationLevel"] = some 0 := by
  exact ⟨rfl, rfl⟩

/-- C7: the dispatcher always returns a status+body pair with at most one
delivery attempt: an unresolved backend gives the local 400 error with no
network call, a raised network fault or a non-JSON reply body gives the
uniform 500 error, and a received reply is passed through. -/
theorem C7_dispatcher (tools : List (String × String)) (sn tn : String)
    (args : Value) (net : NetBehavior) :
    (send_mcp_command tools sn tn args net).2.length ≤ 1 ∧
    (alookupStr tools sn = none →
      send_mcp_command tools sn tn args net =
        ((400, .obj [("error", .str ("Server " ++ sn ++ " not available"))]), [])) ∧
    (∀ u e, alookupStr tools sn = some u → net = .error e →
      send_mcp_command tools sn tn args net =
        ((500, .obj [("error", .str ("Failed to reach " ++ sn ++ " server"))]),
         [.obj [("tool", .str tn), ("args", args)]])) ∧
    (∀ u st e, alookupStr tools sn = some u → net = .ok (st, .error e) →
      send_mcp_command tools sn tn args net =
        ((500, .obj [("error", .str ("Failed to reach " ++ sn ++ " server"))]),
         [.obj [("tool", .str tn), ("args", args)]])) ∧
    (∀ u st body, alookupStr tools sn = some u → net = .ok (st, .ok body) →
      send_mcp_command tools sn tn args net =
        ((st, body), [.obj [("tool", .str tn), ("args", args)]])) := by
  refine ⟨?_, ?_, ?_, ?_, ?_⟩
  · cases hl : alookupStr tools sn with
    | none => simp [send_mcp_command, hl]
    | some u =>
      cases net with
      | error e => simp [send_mcp_command, hl]
      | ok p =>
        obtain ⟨st, bodyR⟩ := p
        cases bodyR with
        | ok body => simp [send_mcp_command, hl]
        | error e => simp [send_mcp_command, hl]
  · intro hl
    simp [send_mcp_command, hl]
  · intro u e hl hnet
    subst hnet
    simp [send_mcp_command, hl]
  · intro u st e hl hnet
    subst hnet
    simp [send_mcp_command, hl]
  · intro u st body hl hnet
    subst hnet
    simp [send_mcp_command, hl]

/-- C7 (witness: unresolved backend and raised network fault). -/
theorem C7_dispatcher_witness :
    send_mcp_command [] "motor" "seat_adjustment" (.obj []) (.error .typeError) =
      ((400, .obj [("error", .str "Server motor not available")]), []) ∧
    send_mcp_command [("motor", "http://localhost:5051/mcp/execute")]
        "motor" "seat_adjustment" (.obj []) (.error .typeError) =
      ((500, .obj [("error", .str "Failed to reach motor server")]),
       [.obj [("tool", .str "seat_adjustment"), ("args", .obj [])]]) := by
  constructor
  · exact (C7_dispatcher [] "motor" "seat_adjustment" (.obj [])
      (.error .typeError)).2.1 rfl
  · exact (C7_dispatcher [("motor", "http://localhost:5051/mcp/execute")]
      "motor" "seat_adjustment" (.obj []) (.error .typeError)).2.2.1
      "http://localhost:5051/mcp/execute" .typeError rfl rfl

/-- C8: normalization is idempotent — for every fragment (and every JSON
parser behaviour), feeding the result of `process_llm_response` back in
as a fragment returns the same canonical command. -/
theorem C8_idempotent (loads : String → Except PyErr Value) (f : Value) :
    (process_llm_response loads
        (process_llm_response loads defaultSC f).1
        (process_llm_response loads defaultSC f).2).2 =
      (process_llm_response loads defaultSC f).2 := by
  have hshape := process_shape loads defaultSC f
  have hinv : scInv (process_llm_response loads defaultSC f).1 :=
    process_inv scInv_defaultSC
  rw [hshape, process_fix hinv]

/-- C8 (witness at the thermal heatingLevel-50 fragment). -/
theorem C8_idempotent_witness :
    (process_llm_response noLoads
        (process_llm_response noLoads defaultSC fragThermal50).1
        (process_llm_response noLoads defaultSC fragThermal50).2).2 =
      (process_llm_response noLoads defaultSC fragThermal50).2 :=
  C8_idempotent noLoads fragThermal50

/-- C9: motor merge scoping — from the pristine default, a fragment
naming only Track with percentage 40 yields exactly the canonical
command whose Track percentage is 40 and whose every other motor, motor
field and section is at its neutral default. -/
theorem C9_motor_frame :
    (process_llm_response noLoads defaultSC (fragTrack 40)).2 =
      .obj [("seatCommand", expectedTrack40)] := by
  rfl

/-- C10: `move_height_up` with the default step and no target decreases
the height — its new value is `max 0 (min 100 (current - 10))`, the very
target `move_height_down` computes. -/
theorem C10_move_height_up_decreases (current : Int) :
    (move_height_up current).new_value = max 0 (min 100 (current - 10)) ∧
    (move_height_up current).new_value = (move_height_down current).new_value := by
  constructor
  · simp [move_height_up, clamp, MOTOR_STEP, MOTOR_MIN, MOTOR_MAX]
    omega
  · simp [move_height_up, move_height_down, clamp, MOTOR_STEP]

/-- C10 (witness at current = 37: both compute 27). -/
theorem C10_witness :
    (move_height_up 37).new_value = max 0 (min 100 (37 - 10)) ∧
    (move_height_up 37).new_value = (move_height_down 37).new_value :=
  C10_move_height_up_decreases 37

end SeatAgent
